import Mathlib

/-!
Verification of the QuadMeshCNN mesh-pooling core against its specification.

The development shallowly embeds the mesh adjacency data structure and the
edge-collapse / doublet-removal algorithm of `models/layers/mesh_pool.py`
and the mesh construction of `models/layers/img2mesh_prepare.py`.

Helper modules of the repository that are imported by `mesh_pool.py` but whose
sources are not available (`mesh_rotation_utils`, the `Mesh` class methods,
`MeshUnion`) are modelled from the specification; every such definition carries
a doc comment starting with `Modelled from the spec:`.

Conventions of the embedding:
  * edge and vertex indices are `Nat`; entries of `gemm_edges` / `sides` /
    `edges` rows are `Int`, with `-1` the absent-neighbour sentinel, exactly
    as in the source;
  * Python lists are Lean `List`s; a read `xs[i]` with a possibly negative
    index follows Python semantics (negative indices wrap from the end),
    implemented by `pyIdx`/`pyRow`/`pyGet`;
  * a Python `assert False` is an `Except.error`; every function on the
    failure path of an assertion returns in `Except String`;
  * feature scalars are integers (`ℤ`): the priority-queue claims are about
    the ordering of squared magnitudes, which an ordered-ring embedding keeps
    exact (and the kernel can evaluate).
-/

set_option maxRecDepth 100000

deriving instance DecidableEq for Except

/-- Mutable mesh state of one sample, as read and written by the pooling
layer: `edges` maps an edge index to its vertex pair ((-1, -1) once removed),
`gemm_edges` maps an edge to its 6-slot one-ring row, `sides` holds the
back-pointer slots, `ve` maps a vertex to its incident live edges, and
`edges_count` counts the live edges. -/
structure Mesh where
  edges : List (Int × Int)
  gemm_edges : List (List Int)
  sides : List (List Int)
  ve : List (List Nat)
  edges_count : Nat
deriving Repr, DecidableEq

/-- Python list index semantics for a (possibly negative) index: negative
indices wrap once from the end of a list of length `n`. -/
def pyIdx (n : Nat) (i : Int) : Nat :=
  if 0 < n then (i.emod n).toNat else 0

/-- Row of a list of rows at a Python (possibly negative) index. -/
def pyRow (rows : List (List Int)) (i : Int) : List Int :=
  rows.getD (pyIdx rows.length i) []

/-- Entry of a row at a Python (possibly negative) index, `-1` past the end. -/
def pyGet (row : List Int) (i : Int) : Int :=
  row.getD (pyIdx row.length i) (-1)

/-- The `gemm_edges` row of edge `e` (a `Nat` index). -/
def rowN (m : Mesh) (e : Nat) : List Int :=
  m.gemm_edges.getD e []

/-- The `gemm_edges` row of an edge given as an `Int` (Python indexing). -/
def rowI (m : Mesh) (e : Int) : List Int :=
  pyRow m.gemm_edges e

/-- The `sides` row of edge `e`. -/
def sidesN (m : Mesh) (e : Nat) : List Int :=
  m.sides.getD e []

/-- The vertex pair of edge `e`, `(-1, -1)` out of range. -/
def edgeAt (m : Mesh) (e : Nat) : Int × Int :=
  m.edges.getD e (-1, -1)

/-- The vertex pair of an edge given as an `Int` (Python indexing). -/
def edgeAtI (m : Mesh) (e : Int) : Int × Int :=
  m.edges.getD (pyIdx m.edges.length e) (-1, -1)

/-- The incident-edge list of vertex `v`. -/
def veAt (m : Mesh) (v : Nat) : List Nat :=
  m.ve.getD v []

/-- The incident-edge list of a vertex given as an `Int` (Python indexing). -/
def veAtI (m : Mesh) (v : Int) : List Nat :=
  m.ve.getD (pyIdx m.ve.length v) []

/-! ### `MeshPool.__get_shared_items` (mesh_pool.py lines 387-394) -/

/-- Source embedding of `MeshPool.__get_shared_items`: for every index pair
`(i, j)` with `list_a[i] == list_b[j]`, both indices are appended to the
result, iterating `i` in the outer loop and `j` in the inner loop. -/
def getSharedItems (list_a list_b : List Int) : List Nat :=
  (List.range list_a.length).flatMap (fun i =>
    (List.range list_b.length).flatMap (fun j =>
      if list_a.getD i 0 = list_b.getD j 0 then [i, j] else []))

/-- Number of index pairs `(i, j)` with `list_a[i] == list_b[j]`. -/
def matchCount (list_a list_b : List Int) : Nat :=
  ((List.range list_a.length).map (fun i =>
    ((List.range list_b.length).filter
      (fun j => list_a.getD i 0 = list_b.getD j 0)).length)).sum

/-! ### `MeshPool.__get_face_info` (mesh_pool.py lines 396-418) -/

/-- Result of `MeshPool.__get_face_info`: the three neighbour edges of one
side of an edge, their stored back-pointer slots, the opposite-half slot
positions, and the three "opposite" neighbour triples read there. -/
structure FaceInfo where
  key_a : Int
  key_b : Int
  key_c : Int
  side_a : Int
  side_b : Int
  side_c : Int
  other_side_a : Int
  other_side_b : Int
  other_side_c : Int
  other_keys_a : List Int
  other_keys_b : List Int
  other_keys_c : List Int
deriving Repr, DecidableEq

/-- Source embedding of `MeshPool.__get_face_info`: reads the three
neighbours at slots `side`, `side+1`, `side+2`, their `sides` values, flips
each to the opposite half (`(side_x - side_x % 3 + 3) % 6`, Python `%`), and
collects each neighbour's three entries of that opposite half. -/
def getFaceInfo (m : Mesh) (edge_id : Nat) (side : Nat) : FaceInfo :=
  let key_a := (rowN m edge_id).getD side (-1)
  let key_b := (rowN m edge_id).getD (side + 1) (-1)
  let key_c := (rowN m edge_id).getD (side + 2) (-1)
  let side_a := (sidesN m edge_id).getD side (-1)
  let side_b := (sidesN m edge_id).getD (side + 1) (-1)
  let side_c := (sidesN m edge_id).getD (side + 2) (-1)
  let other_side_a := (side_a - side_a.emod 3 + 3).emod 6
  let other_side_b := (side_b - side_b.emod 3 + 3).emod 6
  let other_side_c := (side_c - side_c.emod 3 + 3).emod 6
  { key_a := key_a, key_b := key_b, key_c := key_c
    side_a := side_a, side_b := side_b, side_c := side_c
    other_side_a := other_side_a, other_side_b := other_side_b
    other_side_c := other_side_c
    other_keys_a := [(rowI m key_a).getD other_side_a.toNat (-1),
                     (rowI m key_a).getD (other_side_a.toNat + 1) (-1),
                     (rowI m key_a).getD (other_side_a.toNat + 2) (-1)]
    other_keys_b := [(rowI m key_b).getD other_side_b.toNat (-1),
                     (rowI m key_b).getD (other_side_b.toNat + 1) (-1),
                     (rowI m key_b).getD (other_side_b.toNat + 2) (-1)]
    other_keys_c := [(rowI m key_c).getD other_side_c.toNat (-1),
                     (rowI m key_c).getD (other_side_c.toNat + 1) (-1),
                     (rowI m key_c).getD (other_side_c.toNat + 2) (-1)] }

/-! ### `MeshPool.__clean_side` (mesh_pool.py lines 327-350) -/

/-- Source embedding of `MeshPool.__clean_side`: returns `False` while the
live edge count is at or below the pooling target; otherwise gathers the
three opposite neighbour triples of the requested side and returns `True`
when every pair of triples shares at most 2 items; a pair sharing more is
the `assert (False)` branch, embedded as an error. -/
def cleanSide (target : Nat) (m : Mesh) (edge_id : Nat) (side : Nat) :
    Except String Bool :=
  if m.edges_count ≤ target then .ok false
  else
    let info := getFaceInfo m edge_id side
    let shared_ab := getSharedItems info.other_keys_a info.other_keys_b
    let shared_ac := getSharedItems info.other_keys_a info.other_keys_c
    let shared_bc := getSharedItems info.other_keys_b info.other_keys_c
    if shared_ab.length ≤ 2 ∧ shared_ac.length ≤ 2 ∧ shared_bc.length ≤ 2 then
      .ok true
    else
      .error ("assertion failed in clean side")

/-! ### `MeshPool.has_boundaries` (mesh_pool.py lines 352-357) -/

/-- Source embedding of `MeshPool.has_boundaries`: true when some slot of the
edge's `gemm_edges` row is `-1`, or some slot of a listed neighbour's row is
`-1` (the Python `or` short-circuits before indexing with `-1`, and so does
`||` here). -/
def hasBoundaries (m : Mesh) (edge_id : Nat) : Bool :=
  (rowN m edge_id).any (fun edge => edge == -1 || (rowI m edge).contains (-1))

/-! ### `MeshPool.__get_v_n` and `MeshPool.__is_one_ring_valid`
    (mesh_pool.py lines 359-385) -/

/-- Source embedding of `MeshPool.__get_v_n`: for each endpoint of the edge,
the set of all vertex entries of the edges incident to that endpoint. -/
def vnSet (m : Mesh) (edge_id : Nat) : Finset Int × Finset Int :=
  let p := edgeAt m edge_id
  (((veAtI m p.1).flatMap (fun e => [(edgeAt m e).1, (edgeAt m e).2])).toFinset,
   ((veAtI m p.2).flatMap (fun e => [(edgeAt m e).1, (edgeAt m e).2])).toFinset)

/-- Source embedding of `MeshPool.__is_one_ring_valid`: accumulates, over the
edges incident to each endpoint of `edge_id` other than `edge_id` itself, the
`__get_v_n` vertex sets; the check passes when the intersection of the two
accumulations minus `edge_id`'s own endpoints has exactly 4 vertices. -/
def isOneRingValid (m : Mesh) (edge_id : Nat) : Bool :=
  let p := edgeAt m edge_id
  let e_a := veAtI m p.1
  let e_b := veAtI m p.2
  let v_a := e_a.foldl (fun acc e =>
    if e = edge_id then acc else (vnSet m e).1 ∪ (vnSet m e).2 ∪ acc)
    (∅ : Finset Int)
  let v_b := e_b.foldl (fun acc e =>
    if e = edge_id then acc else (vnSet m e).1 ∪ (vnSet m e).2 ∪ acc)
    (∅ : Finset Int)
  let shared := (v_a ∩ v_b) \ {p.1, p.2}
  shared.card == 4

/-- The set described by claim C9: the vertices gathered (through
`__get_v_n`) from the edges incident to an endpoint of `edge_id`, excluding
`edge_id` itself. -/
def gatherVn (m : Mesh) (edge_id : Nat) (endpoint : Int) : Finset Int :=
  ((veAtI m endpoint).filter (fun e => e ≠ edge_id)).foldr
    (fun e acc => acc ∪ ((vnSet m e).1 ∪ (vnSet m e).2)) (∅ : Finset Int)

/-- The set described by claim C9: the two endpoint gatherings intersected,
with the edge's own endpoints removed. -/
def oneRingShared (m : Mesh) (edge_id : Nat) : Finset Int :=
  (gatherVn m edge_id (edgeAt m edge_id).1 ∩
   gatherVn m edge_id (edgeAt m edge_id).2) \
    {(edgeAt m edge_id).1, (edgeAt m edge_id).2}

/-! ### Edge-group union structure and the missing `Mesh` methods -/

/-- Modelled from the spec: the Edge-Group Union Structure of §3 (the
`mesh_union` module is not under src/): a mapping from an edge index to the
set of original edges merged into it, here a list of member lists. -/
abbrev Groups := List (List Nat)

/-- Modelled from the spec: the initial union structure, one singleton group
per original edge (§3: "groups partition the set of all edges ever
created"). -/
def initGroups (n : Nat) : Groups :=
  (List.range n).map (fun i => [i])

/-- Modelled from the spec: `MeshUnion.union(source, target)` folds the
source group into the target group (§2: "tracks which original edges have
been merged into a surviving edge's feature group"). -/
def unionG (g : Groups) (source target : Nat) : Groups :=
  g.set target (g.getD target [] ++ g.getD source [])

/-- Modelled from the spec: `MeshUnion.remove_group(index)` drops the group
of a removed edge. -/
def removeGroupG (g : Groups) (index : Nat) : Groups :=
  g.set index []

/-- Modelled from the spec: the mesh-level `union_groups` / `remove_group`
delegations of §4.1 are "thin delegation to the Union Structure, kept
mirrored"; the embedded `Mesh` carries no group state of its own, so the
mirror leaves the topology unchanged. -/
def meshUnionGroups (m : Mesh) : Mesh := m

/-- Modelled from the spec: `Mesh.remove_edge` of the missing mesh module.
The spec (§4.1) describes the composite removal (mark dead, clear the
`gemm_edges` row, decrement the live count); the parts visible in src
(`MeshPool.remove_edge`) handle the mask, the sentinel pair, the row clear
and the count, so the missing method is modelled as the remaining marking
step: unlinking the edge from its endpoints' incident (`ve`) lists. -/
def meshRemoveEdgeVe (m : Mesh) (e : Nat) : Mesh :=
  let p := edgeAt m e
  let ve1 := m.ve.set (pyIdx m.ve.length p.1)
    ((veAtI m p.1).erase e)
  let m1 := { m with ve := ve1 }
  { m1 with ve := m1.ve.set (pyIdx m1.ve.length p.2) ((veAtI m1 p.2).erase e) }

/-- Modelled from the spec: `Mesh.merge_vertices(u, v)` (§4.1): after all
edges incident to `v` have been re-pointed to `u` or removed, `v`'s identity
is discarded (its `ve` entry becomes irrelevant); vertices are not
renumbered. Modelled by emptying `v`'s incident list. -/
def mergeVertices (m : Mesh) (u v : Nat) : Mesh :=
  { m with ve := m.ve.set v [] }

/-! ### `MeshPool.remove_edge` (mesh_pool.py lines 312-325) -/

/-- Source embedding of the static `MeshPool.remove_edge`: removes the
edge's group, marks it dead in the mask, unlinks it in the mesh
(`mesh.remove_edge`), writes the sentinel vertex pair, decrements
`edges_count` and clears the `gemm_edges` row, in source order. -/
def removeEdge (m : Mesh) (e : Nat) (g : Groups) (mask : List Bool) :
    Mesh × Groups × List Bool :=
  let g1 := removeGroupG g e
  let mask1 := mask.set e false
  let m1 := meshRemoveEdgeVe (meshUnionGroups m) e
  let m2 := { m1 with edges := m1.edges.set e (-1, -1) }
  let m3 := { m2 with edges_count := m2.edges_count - 1 }
  let m4 := { m3 with gemm_edges := m3.gemm_edges.set e [-1, -1, -1, -1, -1, -1] }
  (m4, g1, mask1)

/-! ### Side recomputation and hood-order fix
    (missing `fix_mesh_sides` / `fix_mesh_hood_order` of
    `mesh_rotation_utils`) -/

/-- Recomputed `sides` row of edge `e`: slot `k` becomes the position of `e`
inside the row of `gemm_edges[e][k]` (`-1` when the slot is empty or `e` is
absent there). -/
def recomputeSidesRow (m : Mesh) (e : Nat) : List Int :=
  (List.range 6).map (fun k =>
    let gEdge := (rowN m e).getD k (-1)
    if gEdge = -1 then -1
    else
      let row := pyRow m.gemm_edges gEdge
      if (e : Int) ∈ row then ((row.indexOf ((e : Int)) : Nat) : Int) else -1)

/-- Modelled from the spec: `fix_mesh_sides` of the missing
`mesh_rotation_utils` module (§4.3f): "after all rewrites, recompute `sides`
for every touched edge so the invariant in §3 holds exactly" — each touched
edge's `sides` row is recomputed from the current `gemm_edges` rows. -/
def fixMeshSides (m : Mesh) (touched : List Int) : Mesh :=
  touched.foldl (fun mm t =>
    let e := pyIdx mm.gemm_edges.length t
    { mm with sides := mm.sides.set e (recomputeSidesRow mm e) }) m

/-- Modelled from the spec: `fix_mesh_hood_order` of the missing
`mesh_rotation_utils` module. §4.3f describes this step only as fixing the
ordering of the touched rows before the back-pointers are recomputed; the
spec fixes no observable outcome beyond a within-row reordering, so the rows
are modelled as already ordered (the identity reordering). -/
def fixMeshHoodOrder (m : Mesh) (touched : List Int) : Mesh := m

/-! ### Doublet detection and clearing
    (`MeshPool.pool_doublets`, mesh_pool.py lines 272-310, and the missing
    `find_doublets` / `clear_doublet_pair` of `mesh_rotation_utils`) -/

/-- Modelled from the spec: `find_doublets` of the missing
`mesh_rotation_utils` module (§4.2): scans either the full vertex set or a
supplied candidate list and returns the vertices with exactly 2 incident
live edges together with, for each, the pair of incident edges. -/
def findDoublets (m : Mesh) (vertices : Option (List Nat)) :
    List Nat × List (Nat × Nat) :=
  let vs := match vertices with
    | some l => l
    | none => List.range m.ve.length
  let dvs := vs.filter (fun v => (veAt m v).length = 2)
  (dvs, dvs.map (fun v => ((veAt m v).getD 0 0, (veAt m v).getD 1 0)))

/-- The merged one-ring of a doublet pair (§4.2): the non-doublet, non-empty
entries of the first doublet edge's row, both enclosing sides in row order —
the edges of the face that survives the merge. -/
def doubletRing (m : Mesh) (e1 e2 : Nat) : List Int :=
  ((rowN m e1).take 3).filter
    (fun x => x ≠ -1 ∧ x ≠ (e1 : Int) ∧ x ≠ (e2 : Int)) ++
  ((rowN m e1).drop 3).filter
    (fun x => x ≠ -1 ∧ x ≠ (e1 : Int) ∧ x ≠ (e2 : Int))

/-- One row of the doublet merge: the half of a ring edge's row that listed
the doublet pair (its removed-face side) now lists the other edges of the
merged face; the surviving half is kept. -/
def doubletRewireRow (ring : List Int) (e1 e2 : Nat) (ra : List Int)
    (a : Int) : List Int :=
  if (e1 : Int) ∈ ra.take 3 ∨ (e2 : Int) ∈ ra.take 3 then
    ring.erase a ++ ra.drop 3
  else if (e1 : Int) ∈ ra.drop 3 ∨ (e2 : Int) ∈ ra.drop 3 then
    ra.take 3 ++ ring.erase a
  else ra

/-- One fold step of the doublet merge: replace one ring edge's row by its
rewired row. -/
def doubletRewireStep (ring : List Int) (e1 e2 : Nat) (mm : Mesh)
    (a : Int) : Mesh :=
  let n := pyIdx mm.gemm_edges.length a
  { mm with gemm_edges :=
      mm.gemm_edges.set n (doubletRewireRow ring e1 e2 (rowN mm n) a) }

/-- The doublet merge over all ring edges: every ring edge's removed-face
half is re-pointed to the merged face. -/
def doubletRewire (m : Mesh) (ring : List Int) (e1 e2 : Nat) : Mesh :=
  ring.foldl (doubletRewireStep ring e1 e2) m

/-- Modelled from the spec: `clear_doublet_pair` of the missing
`mesh_rotation_utils` module (§4.2): "the two edges are merged into
whichever other edge(s) they were each one-ring-adjacent to (producing a
feature-group union on both enclosing sides), then both doublet edges are
removed via `remove_edge`". The merge re-points each enclosing ring edge's
removed-face half to the merged face (§4.1 obliges the caller of
`remove_edge` to have unlinked the pair from all neighbours' rows first) and
recomputes the `sides` of the ring rows (§3: the back-pointer invariant must
hold after every mutation). The absorbing edge of each enclosing side is the
first one-ring neighbour of the first doublet edge on that side that is not
a doublet edge; the two returned maps record, per side, which doublet edge
folds into which absorber. The source passes the union structure separately
(`pool_doublets` performs the unions), so the maps are returned. -/
def clearDoubletPair (m : Mesh) (mask : List Bool) (g : Groups)
    (pair : Nat × Nat) :
    Mesh × List Bool × Groups × List (Nat × Nat) × List (Nat × Nat) :=
  let e1 := pair.1
  let e2 := pair.2
  let row := rowN m e1
  let absorber0 := ((row.take 3).filter
    (fun x => x ≠ -1 ∧ x ≠ (e1 : Int) ∧ x ≠ (e2 : Int))).getD 0 (-1)
  let absorber3 := ((row.drop 3).filter
    (fun x => x ≠ -1 ∧ x ≠ (e1 : Int) ∧ x ≠ (e2 : Int))).getD 0 (-1)
  let d0 : List (Nat × Nat) :=
    if 0 ≤ absorber0 then [(e1, absorber0.toNat), (e2, absorber0.toNat)] else []
  let d3 : List (Nat × Nat) :=
    if 0 ≤ absorber3 then [(e1, absorber3.toNat), (e2, absorber3.toNat)] else []
  let ring := doubletRing m e1 e2
  let m1 := doubletRewire m ring e1 e2
  let r1 := removeEdge m1 e1 g mask
  let r2 := removeEdge r1.1 e2 r1.2.1 r1.2.2
  let m3 := fixMeshSides r2.1 ring
  (m3, r2.2.2, r2.2.1, d0, d3)

/-- Source embedding of `MeshPool.pool_doublets`: finds the doublet
configurations (of the supplied vertices, or of the whole mesh), clears each
pair, unions the feature groups along both enclosing sides and drops the
doublet edges' groups; returns whether any doublet was found. -/
def poolDoublets (m : Mesh) (mask : List Bool) (g : Groups)
    (vertices : Option (List Nat)) : Bool × Mesh × List Bool × Groups :=
  let found := findDoublets m vertices
  if found.1.length = 0 then (false, m, mask, g)
  else
    let st := found.2.foldl (fun (st : Mesh × List Bool × Groups) pair =>
      let r := clearDoubletPair st.1 st.2.1 st.2.2 pair
      let d0 := r.2.2.2.1
      let d3 := r.2.2.2.2
      let g2 := d0.foldl (fun gg kv => unionG gg kv.1 kv.2) r.2.2.1
      let g3 := d3.foldl (fun gg kv => unionG gg kv.1 kv.2) g2
      let g4 := removeGroupG (removeGroupG g3 pair.1) pair.2
      (r.1, r.2.1, g4)) (m, mask, g)
    (true, st.1, st.2.1, st.2.2)

/-- Source embedding of the `pool_mesh_operations` doublet loop body with
explicit fuel: clear doublets and repeat while one was cleared. -/
def poolMeshOperationsFuel :
    Nat → Mesh → List Bool → Groups → Mesh × List Bool × Groups
  | 0, m, mask, g => (m, mask, g)
  | fuel + 1, m, mask, g =>
      let r := poolDoublets m mask g none
      if r.1 then poolMeshOperationsFuel fuel r.2.1 r.2.2.1 r.2.2.2
      else (r.2.1, r.2.2.1, r.2.2.2)

/-- Source embedding of `MeshPool.pool_mesh_operations`: repeatedly clears
doublets until none is found (singlet clearing is commented out in the
source). Every genuine clearing removes live edges, so the live edge count
bounds the iteration; the fuel makes that bound explicit. -/
def poolMeshOperations (m : Mesh) (mask : List Bool) (g : Groups) :
    Mesh × List Bool × Groups :=
  poolMeshOperationsFuel (m.edges_count + 1) m mask g

/-! ### Edge hood info, boundary pre-check and edge rotation
    (missing `get_edge_hood_info` / `check_u_v_boundaries` /
    `edge_rotations` of `mesh_rotation_utils`) -/

/-- Modelled from the spec: `get_edge_hood_info` of the missing module. Per
§4.3.4a and the `edge_collapse` docstring step 1, it gathers, for each
endpoint of the edge, the endpoint, its incident edges and those edges'
other vertices. -/
def getEdgeHoodInfo (m : Mesh) (edge_id : Nat) :
    Nat × List Int × List Nat × Nat × List Int × List Nat :=
  let u := (edgeAt m edge_id).1.toNat
  let v := (edgeAt m edge_id).2.toNat
  let e_u := veAt m u
  let e_v := veAt m v
  let other := fun (x : Nat) (e : Nat) =>
    if (edgeAt m e).1 = (x : Int) then (edgeAt m e).2 else (edgeAt m e).1
  (u, e_u.map (other u), e_u, v, e_v.map (other v), e_v)

/-- Modelled from the spec: `check_u_v_boundaries` of the missing module
(§4.3.4b): "Validate neither side immediately re-introduces a boundary;
reject if so" — the configuration is correct when no edge incident to `u` or
to `v` has a boundary; the gathered info is passed through. -/
def checkUVBoundaries (m : Mesh)
    (info : Nat × List Int × List Nat × Nat × List Int × List Nat) :
    Bool × (Nat × List Int × List Nat × Nat × List Int × List Nat) :=
  let e_u := info.2.2.1
  let e_v := info.2.2.2.2.2
  (!(e_u.any (fun e => hasBoundaries m e)) &&
   !(e_v.any (fun e => hasBoundaries m e)), info)

/-- Diagonal vertex of one side of the collapsing edge (glossary: "the two
far vertices of the two faces adjacent to the collapsing edge"): the other
endpoint of the first one-ring edge of that side that touches `v`. -/
def diagVertexOfSide (m : Mesh) (edge_id : Nat) (v : Int) (side : Nat) :
    Option Int :=
  let tri := [(rowN m edge_id).getD side (-1),
              (rowN m edge_id).getD (side + 1) (-1),
              (rowN m edge_id).getD (side + 2) (-1)]
  match tri.find? (fun gE => decide (gE ≠ -1 ∧
      ((edgeAtI m gE).1 = v ∨ (edgeAtI m gE).2 = v))) with
  | some gE =>
      some (if (edgeAtI m gE).1 = v then (edgeAtI m gE).2 else (edgeAtI m gE).1)
  | none => none

/-- Surviving one-ring edges of one side anchored at a diagonal vertex `dv`
(touching `dv` but not `v`): the candidate keys of the feature-combination
map produced by a rotation. -/
def survivingKeysOfSide (m : Mesh) (edge_id : Nat) (v dv : Int) (side : Nat) :
    List Nat :=
  let tri := [(rowN m edge_id).getD side (-1),
              (rowN m edge_id).getD (side + 1) (-1),
              (rowN m edge_id).getD (side + 2) (-1)]
  (tri.filter (fun gE => decide (gE ≠ -1 ∧
      ((edgeAtI m gE).1 = dv ∨ (edgeAtI m gE).2 = dv) ∧
      (edgeAtI m gE).1 ≠ v ∧ (edgeAtI m gE).2 ≠ v))).map Int.toNat

/-- Modelled from the spec: `edge_rotations` of the missing module (§4.3.4c):
re-links the edges around `u` so `u`'s one-ring is consistent with the
post-collapse topology, "producing a mapping of which old edges combine into
which surviving edge ... and identifying the two diagonal vertices that
anchor the far side of the collapse. If this rotation cannot produce a valid
diagonal pair, the whole collapse fails." The spec constrains a rotation to
re-link existing rows without creating or removing edges and gives no finer
description of the resulting rows, so the rows are passed through; the
diagonal vertices follow the glossary, and the returned feature-combination
map is keyed by the surviving one-ring edges anchored at them. -/
def edgeRotations (m : Mesh) (edge_id : Nat) (u : Nat) :
    Mesh × List (Nat × List Nat) × Option (List Int) :=
  let v : Int := if (edgeAt m edge_id).1 = (u : Int) then (edgeAt m edge_id).2
                 else (edgeAt m edge_id).1
  match diagVertexOfSide m edge_id v 0, diagVertexOfSide m edge_id v 3 with
  | some a, some b =>
      let keys := survivingKeysOfSide m edge_id v a 0 ++
                  survivingKeysOfSide m edge_id v b 3
      (m, keys.map (fun k => (k, ([] : List Nat))), some [a, b])
  | _, _ => (m, [], none)

/-! ### `MeshPool.collapse_other_vertex_v` (mesh_pool.py lines 153-254) -/

/-- Working state of the classification loop of `collapse_other_vertex_v`. -/
structure CollapseSt where
  mesh : Mesh
  mask : List Bool
  groups : Groups
  dict : List (Nat × List Nat)
  cmap : List (Nat × Nat)
  eToCollapse : List Nat
  eToReconnect : List Nat

/-- Append a value to one key's list of the feature-combination map. -/
def dictAppend (dict : List (Nat × List Nat)) (key : Nat) (e : Nat) :
    List (Nat × List Nat) :=
  dict.map (fun kv => if kv.1 = key then (kv.1, kv.2 ++ [e]) else kv)

/-- Source embedding of the classification loop body of
`collapse_other_vertex_v`: an edge of `v` touching a diagonal vertex is
recorded for collapse, folded into the matching key of the combination map
and removed; any other edge of `v` is re-pointed from `v` to `u` in both
`ve` and `edges`. -/
def collapseClassifyStep (u v : Nat) (diag : List Int) (st : CollapseSt)
    (e : Nat) : CollapseSt :=
  let p := edgeAt st.mesh e
  let u_e := if p.1 = (v : Int) then p.2 else p.1
  let v_e := if p.1 = (v : Int) then (v : Int) else p.2
  if u_e ∈ diag ∨ v_e ∈ diag then
    let keyOpt := st.dict.find? (fun kv =>
      decide (u_e = (edgeAt st.mesh kv.1).1 ∨ u_e = (edgeAt st.mesh kv.1).2))
    let dict1 := match keyOpt with
      | some kv => dictAppend st.dict kv.1 e
      | none => st.dict
    let cmap1 := match keyOpt with
      | some kv => st.cmap ++ [(e, kv.1)]
      | none => st.cmap
    let r := removeEdge st.mesh e st.groups st.mask
    { st with mesh := r.1, groups := r.2.1, mask := r.2.2,
              dict := dict1, cmap := cmap1,
              eToCollapse := st.eToCollapse ++ [e] }
  else
    let m1 := { st.mesh with ve := st.mesh.ve.set v ((veAt st.mesh v).erase e) }
    let m2 := { m1 with ve := m1.ve.set u ((veAt m1 u) ++ [e]) }
    let m3 :=
      if (edgeAt m2 e).1 = (v : Int) then
        { m2 with edges := m2.edges.set e ((u : Int), (edgeAt m2 e).2) }
      else
        { m2 with edges := m2.edges.set e ((edgeAt m2 e).1, (u : Int)) }
    { st with mesh := m3, eToReconnect := st.eToReconnect ++ [e] }

/-- The classification condition of `collapse_other_vertex_v` for one edge
of `v`: after orienting the pair away from `v`, either component touches a
diagonal vertex (such an edge is collapsed rather than re-pointed). -/
def collapseCond (m : Mesh) (v : Nat) (diag : List Int) (e : Nat) : Prop :=
  (if (edgeAt m e).1 = (v : Int) then (edgeAt m e).2 else (edgeAt m e).1) ∈ diag ∨
  (if (edgeAt m e).1 = (v : Int) then ((v : Nat) : Int) else (edgeAt m e).2) ∈ diag

instance (m : Mesh) (v : Nat) (diag : List Int) (e : Nat) :
    Decidable (collapseCond m v diag e) := by
  unfold collapseCond; infer_instance

/-- Lookup in the collapsed-edge-to-absorber map; a missing key is the
Python `KeyError` of the repair loop, embedded as an error. -/
def cmapFind (cmap : List (Nat × Nat)) (e : Nat) : Except String Nat :=
  match cmap.find? (fun kv => kv.1 = e) with
  | some kv => .ok kv.2
  | none => .error ("collapsed edge missing from the absorber map")

/-- One replacement step of the first repair loop of
`collapse_other_vertex_v`: if the collapsed edge `c` occurs in the old hood
of `edge`, overwrite its position in the current row of `edge` by `c`'s
absorber. -/
def reconnectStep (old : Mesh) (cmap : List (Nat × Nat)) (edge : Int)
    (mm : Mesh) (c : Nat) : Except String Mesh :=
  let old_hood := pyRow old.gemm_edges edge
  if old_hood.any (fun h => h = (c : Int)) then do
    let pos := old_hood.indexOf ((c : Int))
    let absorber ← cmapFind cmap c
    let row := pyRow mm.gemm_edges edge
    let newRows := mm.gemm_edges.set (pyIdx mm.gemm_edges.length edge)
      (row.set pos ((absorber : Nat) : Int))
    .ok { mm with gemm_edges := newRows }
  else .ok mm

/-- Source embedding of the inner body of the first repair loop of
`collapse_other_vertex_v`: for one edge of a reconnected edge's old hood
(not yet rebuilt and not itself collapsed), replace every reference to a
collapsed edge — at its position in the old hood — by that collapsed edge's
absorber, in the current row. -/
def repairReconnectInner (old : Mesh) (cmap : List (Nat × Nat))
    (eToCollapse : List Nat) (st : Mesh × List Int) (edge : Int) :
    Except String (Mesh × List Int) :=
  if edge ∈ st.2 ∨ eToCollapse.any (fun c => (c : Int) = edge) then .ok st
  else do
    let m' ← eToCollapse.foldlM (reconnectStep old cmap edge) st.1
    .ok (m', st.2 ++ [edge])

/-- Source embedding of the first repair loop of `collapse_other_vertex_v`:
walk every reconnected edge and its old one-ring, rebuilding each row once. -/
def repairReconnect (old : Mesh) (cmap : List (Nat × Nat))
    (eToCollapse eToReconnect : List Nat) (m : Mesh) :
    Except String (Mesh × List Int) :=
  eToReconnect.foldlM (fun st e =>
    let hood := pyRow old.gemm_edges ((e : Nat) : Int)
    (((e : Nat) : Int) :: hood).foldlM
      (repairReconnectInner old cmap eToCollapse) st)
    (m, ([] : List Int))

/-- One step of the second repair loop of `collapse_other_vertex_v`, for
one (collapsed edge `key`, absorber `edge`) entry of the map: replace the
half of the absorber's row in which `key` appeared by the matching old half
of `key`'s row (the half not already holding the absorber); a `key` absent
from both halves is the `assert (False)` branch; finally replace any
remaining collapsed edges in the rebuilt row by their absorbers. -/
def absorberStep (old : Mesh) (cmap : List (Nat × Nat))
    (st : Mesh × List Int) (kv : Nat × Nat) :
    Except String (Mesh × List Int) := do
  let key := kv.1
  let edge := kv.2
  let old_hood := rowN old edge
  let cur := rowN st.1 edge
  let keyRowOld := rowN old key
  let half ←
    if (key : Int) ∈ old_hood.take 3 then
      .ok (((if (edge : Int) ∈ keyRowOld.take 3 then keyRowOld.drop 3
             else keyRowOld.take 3) ++ cur.drop 3 : List Int))
    else if (key : Int) ∈ old_hood.drop 3 then
      .ok ((cur.take 3 ++ (if (edge : Int) ∈ keyRowOld.take 3
             then keyRowOld.drop 3 else keyRowOld.take 3) : List Int))
    else
      .error ("assertion failed in absorber repair")
  let fixedRow := half.map (fun x =>
    match cmap.find? (fun kv2 => decide ((kv2.1 : Int) = x)) with
    | some kv2 => ((kv2.2 : Nat) : Int)
    | none => x)
  .ok ({ st.1 with gemm_edges := st.1.gemm_edges.set edge fixedRow },
       st.2 ++ [((edge : Nat) : Int)])

/-- Source embedding of the second repair loop of
`collapse_other_vertex_v`: one `absorberStep` per map entry, in insertion
order. -/
def repairAbsorbers (old : Mesh) (cmap : List (Nat × Nat))
    (st0 : Mesh × List Int) : Except String (Mesh × List Int) :=
  cmap.foldlM (absorberStep old cmap) st0

/-- Source embedding of `MeshPool.collapse_other_vertex_v`: clear a doublet
at `v` if one exists (and stop), otherwise classify every edge of `v`
(collapse or re-point), repair the hoods of the reconnected edges and of the
absorbers against the pre-collapse mesh (`deepcopy` in the source; a value
copy here), fix hood order and `sides` of every touched edge, and merge `v`
into `u`. -/
def collapseOtherVertexV (m : Mesh) (u v : Nat) (e_v : List Nat)
    (diag : List Int) (dict : List (Nat × List Nat)) (g : Groups)
    (mask : List Bool) :
    Except String (Mesh × List Bool × Groups × List (Nat × List Nat)) := do
  let d := poolDoublets m mask g (some [v])
  if d.1 then
    .ok (d.2.1, d.2.2.1, d.2.2.2, dict)
  else
    let old := m
    let st0 : CollapseSt := ⟨m, mask, g, dict, [], [], []⟩
    let st1 := e_v.foldl (collapseClassifyStep u v diag) st0
    let r1 ← repairReconnect old st1.cmap st1.eToCollapse st1.eToReconnect
      st1.mesh
    let r2 ← repairAbsorbers old st1.cmap r1
    let m4 := fixMeshHoodOrder r2.1 r2.2
    let m5 := fixMeshSides m4 r2.2
    let m6 := mergeVertices m5 u v
    .ok (m6, st1.mask, st1.groups, st1.dict)

/-! ### `MeshPool.edge_collapse` and `MeshPool.__pool_edge`
    (mesh_pool.py lines 66-151) -/

/-- Source embedding of `MeshPool.__union_groups_at_once`: union every
source of the feature-combination map into its target key. -/
def unionGroupsAtOnce (g : Groups) (dict : List (Nat × List Nat)) : Groups :=
  dict.foldl (fun gg kv =>
    kv.2.foldl (fun gg2 s => if kv.1 = s then gg2 else unionG gg2 s kv.1) gg) g

/-- Source embedding of `MeshPool.edge_collapse`: gather the hood info of
the edge's endpoints, reject if an incident edge has a boundary, rotate the
edges around `u` (reject when no diagonal pair exists), collapse the `v`
side and union the resulting feature groups. -/
def edgeCollapse (edge_id : Nat) (m : Mesh) (mask : List Bool) (g : Groups) :
    Except String (Bool × Mesh × List Bool × Groups) := do
  let info := getEdgeHoodInfo m edge_id
  let chk := checkUVBoundaries m info
  if chk.1 then
    let u := chk.2.1
    let v := chk.2.2.2.2.1
    let rot := edgeRotations m edge_id u
    match rot.2.2 with
    | none => .ok (false, rot.1, mask, g)
    | some diag =>
        let e_v := veAt rot.1 v
        let r ← collapseOtherVertexV rot.1 u v e_v diag rot.2.1 g mask
        .ok (true, r.1, r.2.1, unionGroupsAtOnce r.2.2.1 r.2.2.2)
  else
    .ok (false, m, mask, g)

/-- Source embedding of `MeshPool.__pool_edge`: normalize doublets, reject a
boundary candidate, check both sides' cleanliness and the one-ring validity
(Python `and` short-circuit order), then run the collapse followed by a
second doublet normalization. -/
def poolEdge (target : Nat) (m : Mesh) (edge_id : Nat) (mask : List Bool)
    (g : Groups) : Except String (Bool × Mesh × List Bool × Groups) := do
  let p := poolMeshOperations m mask g
  let m1 := p.1
  let mask1 := p.2.1
  let g1 := p.2.2
  if hasBoundaries m1 edge_id then
    .ok (false, m1, mask1, g1)
  else do
    let c0 ← cleanSide target m1 edge_id 0
    if c0 then do
      let c3 ← cleanSide target m1 edge_id 3
      if c3 then
        if isOneRingValid m1 edge_id then do
          let r ← edgeCollapse edge_id m1 mask1 g1
          let q := poolMeshOperations r.2.1 r.2.2.1 r.2.2.2
          .ok (r.1, q.1, q.2.1, q.2.2)
        else .ok (false, m1, mask1, g1)
      else .ok (false, m1, mask1, g1)
    else .ok (false, m1, mask1, g1)

/-! ### `MeshPool.__build_queue` and `MeshPool.__pool_main`
    (mesh_pool.py lines 45-64 and 420-430) -/

/-- Strict lexicographic order of two heap entries `(squared magnitude,
edge id)`: Python compares the two-element list keys element-wise. -/
def pairLt (a b : ℤ × Nat) : Prop :=
  a.1 < b.1 ∨ (a.1 = b.1 ∧ a.2 < b.2)

instance (a b : ℤ × Nat) : Decidable (pairLt a b) := by
  unfold pairLt; infer_instance

/-- Squared feature magnitude of one edge; the feature tensor is
channels-major, so each entry of `features` holds one channel over the
edges (`torch.sum(features * features, 0)`). -/
def sqMag (features : List (List ℤ)) (e : Nat) : ℤ :=
  (features.map (fun row => row.getD e 0 * row.getD e 0)).sum

/-- Source embedding of `MeshPool.__build_queue`: one heap entry per edge
index below `edges_count`, keyed by the squared feature magnitude paired
with the edge id. -/
def buildQueue (features : List (List ℤ)) (edges_count : Nat) :
    List (ℤ × Nat) :=
  (List.range edges_count).map (fun e => (sqMag features e, e))

/-- Insertion step of the heap-order sort. -/
def heapInsert (a : ℤ × Nat) : List (ℤ × Nat) → List (ℤ × Nat)
  | [] => [a]
  | b :: bs => if pairLt b a then b :: heapInsert a bs else a :: b :: bs

/-- The `heapq` contract embedded: the pooling loop performs pops only (no
pushes), so the sequence of `heappop` results is exactly the heap's entries
in increasing `(magnitude, id)` order; the heap is embedded as that sorted
sequence. -/
def heapSort (q : List (ℤ × Nat)) : List (ℤ × Nat) :=
  q.foldr heapInsert []

/-- Source embedding of the `__pool_main` drain loop, with the number of pop
operations counted: while the live edge count exceeds the target, pop the
minimum entry (an empty heap is the Python `IndexError`), skip an edge
already dead in the mask, and otherwise attempt `__pool_edge`; a popped
entry is never re-inserted, whether the attempt succeeds or fails. -/
def poolLoop (target : Nat) : Mesh → List (ℤ × Nat) → List Bool → Groups →
    Except String (Mesh × List Bool × Groups) × Nat
  | m, [], mask, g =>
      if m.edges_count ≤ target then (.ok (m, mask, g), 0)
      else (.error ("heappop from an empty heap"), 0)
  | m, entry :: rest, mask, g =>
      if m.edges_count ≤ target then (.ok (m, mask, g), 0)
      else
        if mask.getD entry.2 false then
          match poolEdge target m entry.2 mask g with
          | .error s => (.error s, 1)
          | .ok r =>
              let res := poolLoop target r.2.1 rest r.2.2.1 r.2.2.2
              (res.1, res.2 + 1)
        else
          let res := poolLoop target m rest mask g
          (res.1, res.2 + 1)

/-- Modelled from the spec: `Mesh.clean` of the missing mesh module
(§4.4.4: "run a final mesh cleanup pass (doublet normalization)"). -/
def meshClean (m : Mesh) (mask : List Bool) (g : Groups) :
    Mesh × List Bool × Groups :=
  poolMeshOperations m mask g

/-- Modelled from the spec: `MeshUnion.rebuild_features` of the missing
`mesh_union` module (§4.4.4-5): for each surviving edge in increasing index
order, up to `target` columns, the mean of its group members' original
feature vectors. -/
def rebuildFeatures (features : List (List ℤ)) (g : Groups)
    (mask : List Bool) (target : Nat) : List (List ℤ) :=
  let survivors :=
    ((List.range mask.length).filter (fun e => mask.getD e false)).take target
  survivors.map (fun e =>
    let members := g.getD e []
    features.map (fun row =>
      (members.map (fun s => row.getD s 0)).sum / (members.length : ℤ)))

/-- Source embedding of `MeshPool.__pool_main` for one mesh: build the
priority queue over the live edges' squared feature magnitudes, drain it,
then run the final mesh cleanup and rebuild the pooled features; the second
component counts the pop operations performed. -/
def poolMain (target : Nat) (features : List (List ℤ)) (m : Mesh) :
    Except String (Mesh × List Bool × Groups × List (List ℤ)) × Nat :=
  let q := heapSort (buildQueue features m.edges_count)
  let mask := List.replicate m.edges_count true
  let g := initGroups m.edges_count
  let r := poolLoop target m q mask g
  match r.1 with
  | .error s => (.error s, r.2)
  | .ok res =>
      let c := meshClean res.1 res.2.1 res.2.2
      (.ok (c.1, c.2.1, c.2.2, rebuildFeatures features c.2.2 c.2.1 target),
       r.2)

/-! ### `build_gemm` (img2mesh_prepare.py lines 126-174) -/

/-- Sorted vertex pair of one polygon side (`tuple(sorted(list(edge)))`). -/
def sortPair (a b : Nat) : Nat × Nat :=
  if a ≤ b then (a, b) else (b, a)

/-- The four sorted edges of a quad face, in face order
(`(face[i], face[(i + 1) % 4])` for `i` in `0..3`). -/
def faceEdges (face : List Nat) : List (Nat × Nat) :=
  (List.range 4).map (fun i =>
    sortPair (face.getD i 0) (face.getD ((i + 1) % 4) 0))

/-- Construction state of `build_gemm`: the growing edge registry
(`edge2key`, `edges`), the 6-slot rows (`edge_nb`, `sides`), the per-vertex
incidence lists, the per-edge fill counters (`nb_count`) and areas. -/
structure GemmState where
  ve : List (List Nat)
  edge_nb : List (List Int)
  sides : List (List Int)
  edge2key : List ((Nat × Nat) × Nat)
  edges : List (Nat × Nat)
  edges_count : Nat
  nb_count : List Nat
  edge_areas : List ℚ
deriving Repr, DecidableEq

/-- `edge2key` lookup. -/
def lookupKey (s : GemmState) (e : Nat × Nat) : Option Nat :=
  (s.edge2key.find? (fun kv => kv.1 = e)).map (fun kv => kv.2)

/-- `edge2key[edge]` of a registered edge (`0` would be the Python
`KeyError`; phase one registers every face edge first). -/
def keyOf (s : GemmState) (e : Nat × Nat) : Nat :=
  (lookupKey s e).getD 0

/-- Source embedding of the first per-face loop of `build_gemm`: register a
not-yet-seen edge (fresh key, empty rows, `ve` links, zero counters) and
accumulate a quarter of the face area onto the edge. -/
def registerEdge (area4 : ℚ) (s : GemmState) (e : Nat × Nat) : GemmState :=
  let s1 := match lookupKey s e with
    | some _ => s
    | none =>
        let cnt := s.edges_count
        let ve1 := s.ve.set e.1 ((s.ve.getD e.1 []) ++ [cnt])
        let ve2 := ve1.set e.2 ((ve1.getD e.2 []) ++ [cnt])
        { s with
          edge2key := s.edge2key ++ [(e, cnt)]
          edges := s.edges ++ [e]
          edge_nb := s.edge_nb ++ [[-1, -1, -1, -1, -1, -1]]
          sides := s.sides ++ [[-1, -1, -1, -1, -1, -1]]
          ve := ve2
          edge_areas := s.edge_areas ++ [0]
          nb_count := s.nb_count ++ [0]
          edges_count := cnt + 1 }
  let k := keyOf s1 e
  { s1 with edge_areas := s1.edge_areas.set k ((s1.edge_areas.getD k 0) + area4) }

/-- Source embedding of the second per-face loop body of `build_gemm`: fill
the next three `edge_nb` slots of the edge at position `idx` of the face
with the keys of the three other face edges, advancing `nb_count`. -/
def writeNb (fes : List (Nat × Nat)) (s : GemmState) (idx : Nat) : GemmState :=
  let k := keyOf s (fes.getD idx (0, 0))
  let c := s.nb_count.getD k 0
  let row := s.edge_nb.getD k []
  let row1 := row.set c ((keyOf s (fes.getD ((idx + 1) % 4) (0, 0)) : Nat) : Int)
  let row2 := row1.set (c + 1) ((keyOf s (fes.getD ((idx + 2) % 4) (0, 0)) : Nat) : Int)
  let row3 := row2.set (c + 2) ((keyOf s (fes.getD ((idx + 3) % 4) (0, 0)) : Nat) : Int)
  { s with edge_nb := s.edge_nb.set k row3, nb_count := s.nb_count.set k (c + 3) }

/-- The three `sides` assignments of the third per-face loop of `build_gemm`
on one row: positions `nb_count[k] - 3 .. nb_count[k] - 1` (negative Python
indices wrap, hence `pyIdx`) receive the neighbours' counters minus 1, 2, 3. -/
def sidesRow3 (row : List Int) (c n1 n2 n3 : Nat) : List Int :=
  let row1 := row.set (pyIdx row.length ((c : Int) - 3)) ((n1 : Int) - 1)
  let row2 := row1.set (pyIdx row1.length ((c : Int) - 2)) ((n2 : Int) - 2)
  row2.set (pyIdx row2.length ((c : Int) - 1)) ((n3 : Int) - 3)

/-- Source embedding of the third per-face loop body of `build_gemm`: fill
the three `sides` slots written by the second loop with the back-pointer
positions inside the neighbours' rows (all `nb_count`s are already
advanced). -/
def writeSides (fes : List (Nat × Nat)) (s : GemmState) (idx : Nat) : GemmState :=
  let k := keyOf s (fes.getD idx (0, 0))
  let row :=
    sidesRow3 (s.sides.getD k []) (s.nb_count.getD k 0)
      (s.nb_count.getD (keyOf s (fes.getD ((idx + 1) % 4) (0, 0))) 0)
      (s.nb_count.getD (keyOf s (fes.getD ((idx + 2) % 4) (0, 0))) 0)
      (s.nb_count.getD (keyOf s (fes.getD ((idx + 3) % 4) (0, 0))) 0)
  { s with sides := s.sides.set k row }

/-- Source embedding of one face step of `build_gemm`: the three per-face
loops in source order. -/
def processFace (s : GemmState) (face : List Nat) (farea : ℚ) : GemmState :=
  let fes := faceEdges face
  let s1 := fes.foldl (registerEdge (farea / 4)) s
  let s2 := (List.range 4).foldl (writeNb fes) s1
  (List.range 4).foldl (writeSides fes) s2

/-- Source embedding of `build_gemm`: fold the faces through the three
per-face loops, starting from an empty registry and one empty incidence
list per vertex, and normalize the edge areas by the total face area. -/
def buildGemm (faces : List (List Nat)) (face_areas : List ℚ) (nV : Nat) :
    GemmState :=
  let s0 : GemmState :=
    ⟨List.replicate nV [], [], [], [], [], 0, [], []⟩
  let s := (List.range faces.length).foldl (fun st i =>
    processFace st (faces.getD i []) (face_areas.getD i 0)) s0
  { s with edge_areas := s.edge_areas.map (fun a => a / face_areas.sum) }

/-- The mesh assembled from a `build_gemm` state (the array conversions at
the end of the source function). -/
def meshOfGemm (s : GemmState) : Mesh :=
  { edges := s.edges.map (fun p => ((p.1 : Int), (p.2 : Int)))
    gemm_edges := s.edge_nb
    sides := s.sides
    ve := s.ve
    edges_count := s.edges_count }

/-! ### The back-pointer invariant of claim C1 -/

/-- One back-pointer check over raw rows: slot `k` of edge `e` either is
empty or points back, `gemm_edges[gemm_edges[e][k]][sides[e][k]] == e`, read
with Python index semantics. -/
def backPtrOkB (gemm sidesRows : List (List Int)) (e k : Nat) : Bool :=
  let gE := (gemm.getD e []).getD k (-1)
  gE == -1 ||
    pyGet (pyRow gemm gE) ((sidesRows.getD e []).getD k (-1)) == (e : Int)

/-- Status projection of a collapse-attempt result. -/
def exceptStatus (x : Except String (Bool × Mesh × List Bool × Groups)) :
    Option Bool :=
  match x with
  | .ok r => some r.1
  | .error _ => none

/-- Live-edge-count projection of a collapse-attempt result. -/
def exceptCount (x : Except String (Bool × Mesh × List Bool × Groups)) :
    Option Nat :=
  match x with
  | .ok r => some r.2.1.edges_count
  | .error _ => none

/-! ### Bookkeeping invariants of a `build_gemm` state -/

/-- A small mesh whose first edge's side-0 opposite triples are pairwise
disjoint, with fewer live edges than a typical pooling target. -/
def smallCleanMesh : Mesh :=
  { edges := []
    gemm_edges := [[1, 2, 3, 4, 5, 6], [0, 2, 3, 101, 102, 103],
                   [0, 1, 3, 104, 105, 106], [0, 1, 2, 107, 108, 109]]
    sides := [[0, 0, 0, 0, 0, 0]]
    ve := []
    edges_count := 3 }

/-- A closed 4x4 torus quad grid (vertex `(i, j)` is `4 * i + j`): 16
vertices, 32 edges, 16 quad faces, every edge interior; a concrete
well-formed `build_gemm` input. -/
def torusFaces : List (List Nat) :=
  (List.range 4).flatMap (fun i => (List.range 4).map (fun j =>
    [4 * i + j, 4 * i + (j + 1) % 4,
     4 * ((i + 1) % 4) + (j + 1) % 4, 4 * ((i + 1) % 4) + j]))

/-- The `build_gemm` state of the torus grid. -/
def torusState : GemmState :=
  buildGemm torusFaces (List.replicate 16 1) 16

/-- The torus mesh itself. -/
def torusMesh : Mesh := meshOfGemm torusState

/-- An all-live mask for the torus mesh. -/
def torusMask : List Bool := List.replicate 32 true

/-- The initial groups of the torus mesh. -/
def torusGroups : Groups := initGroups 32

/-- The result of a successful edge collapse of edge 0 on the torus mesh
(the fallback branch is never taken: the collapse succeeds). -/
def torusCollapse : Bool × Mesh × List Bool × Groups :=
  match edgeCollapse 0 torusMesh torusMask torusGroups with
  | .ok r => r
  | .error _ => (false, torusMesh, torusMask, torusGroups)

/-- Two disjoint boundary edges (every `gemm_edges` slot `-1`), no vertex of
degree 2: every collapse attempt is rejected and no doublet exists. -/
def boundaryPairMesh : Mesh :=
  { edges := [(0, 1), (2, 3)]
    gemm_edges := [[-1, -1, -1, -1, -1, -1], [-1, -1, -1, -1, -1, -1]]
    sides := [[-1, -1, -1, -1, -1, -1], [-1, -1, -1, -1, -1, -1]]
    ve := [[0], [0], [1], [1]]
    edges_count := 2 }

/-- A mesh with a boundary candidate edge (edge 0) and a doublet at vertex 4
(incident edges 1 and 2): the doublet normalization at the start of a
`__pool_edge` attempt mutates the mesh even though the attempt is then
rejected at the boundary check. -/
def doubletMesh : Mesh :=
  { edges := [(0, 1), (4, 5), (4, 6), (2, 3)]
    gemm_edges := [[-1, -1, -1, -1, -1, -1], [3, 2, -1, -1, -1, -1],
                   [3, 1, -1, -1, -1, -1], [-1, -1, -1, -1, -1, -1]]
    sides := [[-1, -1, -1, -1, -1, -1], [-1, -1, -1, -1, -1, -1],
              [-1, -1, -1, -1, -1, -1], [-1, -1, -1, -1, -1, -1]]
    ve := [[0], [0], [3], [3], [1, 2], [1], [2]]
    edges_count := 4 }

theorem getSharedItems_inner_length (list_a list_b : List Int) (i : Nat) :
    ((List.range list_b.length).flatMap (fun j =>
      if list_a.getD i 0 = list_b.getD j 0 then [i, j] else [])).length =
    2 * ((List.range list_b.length).filter
      (fun j => list_a.getD i 0 = list_b.getD j 0)).length := by
  induction (List.range list_b.length) with
  | nil => simp
  | cons j js ih =>
      rw [List.flatMap_cons, List.length_append, ih, List.filter_cons]
      by_cases h : list_a.getD i 0 = list_b.getD j 0
      · rw [if_pos h, if_pos (by simp only [decide_eq_true_eq]; exact h)]
        simp only [List.length_cons, List.length_nil]
        omega
      · rw [if_neg h, if_neg (by simp only [decide_eq_true_eq]; exact h)]
        simp only [List.length_cons, List.length_nil]
        omega

theorem getSharedItems_length (list_a list_b : List Int) :
    (getSharedItems list_a list_b).length = 2 * matchCount list_a list_b := by
  unfold getSharedItems matchCount
  induction (List.range list_a.length) with
  | nil => simp
  | cons i is ih =>
      rw [List.flatMap_cons, List.length_append, ih,
        getSharedItems_inner_length, List.map_cons, List.sum_cons]
      omega

/-- C10: `__get_shared_items(a, b)` returns a list whose length is exactly
twice the number of index pairs `(i, j)` with `a[i] == b[j]`; the length is
therefore always even, and the `len <= 2` threshold used by `__clean_side`
holds exactly when at most one element pair matches. -/
theorem c10_shared_items_double_count (list_a list_b : List Int) :
    (getSharedItems list_a list_b).length = 2 * matchCount list_a list_b ∧
    Even (getSharedItems list_a list_b).length ∧
    ((getSharedItems list_a list_b).length ≤ 2 ↔ matchCount list_a list_b ≤ 1) := by
  refine ⟨getSharedItems_length list_a list_b, ?_, ?_⟩
  · exact ⟨matchCount list_a list_b, by
      rw [getSharedItems_length]; ring⟩
  · rw [getSharedItems_length]
    omega

/-! ## Shared list helpers -/

theorem getD_set_ne' {α : Type} (l : List α) (i j : Nat) (a d : α)
    (h : i ≠ j) : (l.set i a).getD j d = l.getD j d := by
  simp [List.getD_eq_getElem?_getD, List.getElem?_set_ne h]

theorem getD_set_self' {α : Type} (l : List α) (i : Nat) (a d : α)
    (h : i < l.length) : (l.set i a).getD i d = a := by
  simp [List.getD_eq_getElem?_getD, List.getElem?_set_self, h]

/-! ## Claim C3: side cleanliness -/

theorem cleanSide_cases (target : Nat) (m : Mesh) (edge_id side : Nat)
    (h : target < m.edges_count) :
    (cleanSide target m edge_id side = .ok true ↔
      ((getSharedItems (getFaceInfo m edge_id side).other_keys_a
          (getFaceInfo m edge_id side).other_keys_b).length ≤ 2 ∧
       (getSharedItems (getFaceInfo m edge_id side).other_keys_a
          (getFaceInfo m edge_id side).other_keys_c).length ≤ 2 ∧
       (getSharedItems (getFaceInfo m edge_id side).other_keys_b
          (getFaceInfo m edge_id side).other_keys_c).length ≤ 2)) ∧
    (cleanSide target m edge_id side = .error ("assertion failed in clean side") ↔
      ¬((getSharedItems (getFaceInfo m edge_id side).other_keys_a
          (getFaceInfo m edge_id side).other_keys_b).length ≤ 2 ∧
       (getSharedItems (getFaceInfo m edge_id side).other_keys_a
          (getFaceInfo m edge_id side).other_keys_c).length ≤ 2 ∧
       (getSharedItems (getFaceInfo m edge_id side).other_keys_b
          (getFaceInfo m edge_id side).other_keys_c).length ≤ 2)) := by
  unfold cleanSide
  rw [if_neg (by omega)]
  by_cases hc :
      ((getSharedItems (getFaceInfo m edge_id side).other_keys_a
          (getFaceInfo m edge_id side).other_keys_b).length ≤ 2 ∧
       (getSharedItems (getFaceInfo m edge_id side).other_keys_a
          (getFaceInfo m edge_id side).other_keys_c).length ≤ 2 ∧
       (getSharedItems (getFaceInfo m edge_id side).other_keys_b
          (getFaceInfo m edge_id side).other_keys_c).length ≤ 2)
  · rw [if_pos hc]
    simp [hc]
  · rw [if_neg hc]
    simp [hc]

/-- C3 (amended): provided the live edge count exceeds the pooling target,
`__clean_side` gathers the three neighbour edges' opposite 3-neighbour
triples and returns `True` exactly when no pair of those triples shares more
than 2 elements, and fails with the fatal assertion (not a recoverable
rejection) exactly when some pair shares more; at or below the target it
instead returns `False` recoverably. -/
theorem c3_clean_side_theorem (target : Nat) (m : Mesh) (edge_id side : Nat)
    (h : target < m.edges_count) :
    (cleanSide target m edge_id side = .ok true ↔
      ((getSharedItems (getFaceInfo m edge_id side).other_keys_a
          (getFaceInfo m edge_id side).other_keys_b).length ≤ 2 ∧
       (getSharedItems (getFaceInfo m edge_id side).other_keys_a
          (getFaceInfo m edge_id side).other_keys_c).length ≤ 2 ∧
       (getSharedItems (getFaceInfo m edge_id side).other_keys_b
          (getFaceInfo m edge_id side).other_keys_c).length ≤ 2)) ∧
    (cleanSide target m edge_id side = .error ("assertion failed in clean side") ↔
      ¬((getSharedItems (getFaceInfo m edge_id side).other_keys_a
          (getFaceInfo m edge_id side).other_keys_b).length ≤ 2 ∧
       (getSharedItems (getFaceInfo m edge_id side).other_keys_a
          (getFaceInfo m edge_id side).other_keys_c).length ≤ 2 ∧
       (getSharedItems (getFaceInfo m edge_id side).other_keys_b
          (getFaceInfo m edge_id side).other_keys_c).length ≤ 2)) :=
  cleanSide_cases target m edge_id side h

/-- C3 witness: on the torus mesh with target 6 the side-0 check of edge 0
returns `True` with every pair of triples sharing at most 2 elements. -/
theorem c3_clean_side_witness :
    6 < torusMesh.edges_count ∧
    (cleanSide 6 torusMesh 0 0 = .ok true ↔
      ((getSharedItems (getFaceInfo torusMesh 0 0).other_keys_a
          (getFaceInfo torusMesh 0 0).other_keys_b).length ≤ 2 ∧
       (getSharedItems (getFaceInfo torusMesh 0 0).other_keys_a
          (getFaceInfo torusMesh 0 0).other_keys_c).length ≤ 2 ∧
       (getSharedItems (getFaceInfo torusMesh 0 0).other_keys_b
          (getFaceInfo torusMesh 0 0).other_keys_c).length ≤ 2)) :=
  ⟨by decide, (c3_clean_side_theorem 6 torusMesh 0 0 (by decide)).1⟩

/-- C3 counterexample: with the live count (3) at or below the target (5)
`__clean_side` returns `False` although no pair of the triples shares more
than 2 elements, so "returns True exactly when no pair of those triples
shares more than 2 elements" fails as stated. -/
theorem c3_clean_side_counterexample :
    cleanSide 5 smallCleanMesh 0 0 = .ok false ∧
    (getSharedItems (getFaceInfo smallCleanMesh 0 0).other_keys_a
       (getFaceInfo smallCleanMesh 0 0).other_keys_b).length ≤ 2 ∧
    (getSharedItems (getFaceInfo smallCleanMesh 0 0).other_keys_a
       (getFaceInfo smallCleanMesh 0 0).other_keys_c).length ≤ 2 ∧
    (getSharedItems (getFaceInfo smallCleanMesh 0 0).other_keys_b
       (getFaceInfo smallCleanMesh 0 0).other_keys_c).length ≤ 2 := by
  decide

/-! ## Claim C2: no-op on rejection -/

theorem poolDoublets_not_found (m : Mesh) (mask : List Bool) (g : Groups)
    (vertices : Option (List Nat))
    (h : (findDoublets m vertices).1.length = 0) :
    poolDoublets m mask g vertices = (false, m, mask, g) := by
  unfold poolDoublets
  rw [if_pos h]

theorem poolMeshOperations_id (m : Mesh) (mask : List Bool) (g : Groups)
    (h : (findDoublets m none).1.length = 0) :
    poolMeshOperations m mask g = (m, mask, g) := by
  unfold poolMeshOperations poolMeshOperationsFuel
  rw [poolDoublets_not_found m mask g none h]
  simp

/-- C2 counterexample: on `doubletMesh` the attempt on edge 0 returns
failure (`False`) yet `edges_count` drops from 4 to 2 — the doublet
normalization that `__pool_edge` runs before its checks mutates the mesh,
so a failed attempt is not always a no-op. -/
theorem c2_counterexample :
    exceptStatus (poolEdge 1 doubletMesh 0 (List.replicate 4 true)
      (initGroups 4)) = some false ∧
    exceptCount (poolEdge 1 doubletMesh 0 (List.replicate 4 true)
      (initGroups 4)) = some 2 ∧
    doubletMesh.edges_count = 4 := by
  decide

/-! ## Claim C6: boundary detection and rejection -/

/-- C6: `has_boundaries(mesh, e)` is true exactly when some slot of
`gemm_edges[e]` is `-1` or some slot of a neighbour `n` listed in
`gemm_edges[e]` is `-1`; and whenever the boundary check of `__pool_edge`
(evaluated after the initial doublet normalization mutates nothing more) is
true for the candidate, `__pool_edge` returns `False`. -/
theorem c6_has_boundaries (m : Mesh) (edge_id target : Nat)
    (mask : List Bool) (g : Groups)
    (hb : hasBoundaries (poolMeshOperations m mask g).1 edge_id = true) :
    (∀ (m' : Mesh) (e : Nat), hasBoundaries m' e = true ↔
      ∃ gE ∈ rowN m' e, gE = -1 ∨ (-1 : Int) ∈ rowI m' gE) ∧
    poolEdge target m edge_id mask g =
      .ok (false, (poolMeshOperations m mask g).1,
           (poolMeshOperations m mask g).2.1,
           (poolMeshOperations m mask g).2.2) := by
  constructor
  · intro m' e
    unfold hasBoundaries
    rw [List.any_eq_true]
    constructor
    · rintro ⟨gE, hmem, hpred⟩
      refine ⟨gE, hmem, ?_⟩
      rw [Bool.or_eq_true] at hpred
      rcases hpred with h1 | h2
      · exact Or.inl (by simpa using h1)
      · exact Or.inr (by simpa using h2)
    · rintro ⟨gE, hmem, h1 | h2⟩
      · exact ⟨gE, hmem, by simp [h1]⟩
      · exact ⟨gE, hmem, by simp [h2]⟩
  · simp [poolEdge, hb]

/-- C6 witness: on the two-boundary-edge mesh the candidate edge 0 has a
boundary after normalization and the attempt is rejected. -/
theorem c6_has_boundaries_witness :
    hasBoundaries (poolMeshOperations boundaryPairMesh
      (List.replicate 2 true) (initGroups 2)).1 0 = true ∧
    poolEdge 1 boundaryPairMesh 0 (List.replicate 2 true) (initGroups 2) =
      .ok (false,
        (poolMeshOperations boundaryPairMesh (List.replicate 2 true)
          (initGroups 2)).1,
        (poolMeshOperations boundaryPairMesh (List.replicate 2 true)
          (initGroups 2)).2.1,
        (poolMeshOperations boundaryPairMesh (List.replicate 2 true)
          (initGroups 2)).2.2) :=
  ⟨by decide,
   (c6_has_boundaries boundaryPairMesh 0 1 (List.replicate 2 true)
     (initGroups 2) (by decide)).2⟩

/-! ## Claim C9: one-ring validity -/

theorem mem_vn_foldl (f : Nat → Finset Int) (excl : Nat) (l : List Nat)
    (init : Finset Int) (x : Int) :
    (x ∈ l.foldl (fun acc e => if e = excl then acc else f e ∪ acc) init ↔
      x ∈ init ∨ ∃ e ∈ l, e ≠ excl ∧ x ∈ f e) := by
  induction l generalizing init with
  | nil => simp
  | cons e l ih =>
      simp only [List.foldl_cons]
      by_cases he : e = excl
      · rw [if_pos he]
        rw [ih]
        subst he
        constructor
        · rintro (hx | ⟨e', he', hne, hfe⟩)
          · exact Or.inl hx
          · exact Or.inr ⟨e', List.mem_cons_of_mem _ he', hne, hfe⟩
        · rintro (hx | ⟨e', he', hne, hfe⟩)
          · exact Or.inl hx
          · rcases List.mem_cons.1 he' with rfl | he''
            · exact absurd rfl hne
            · exact Or.inr ⟨e', he'', hne, hfe⟩
      · rw [if_neg he]
        rw [ih]
        constructor
        · rintro (hx | ⟨e', he', hne, hfe⟩)
          · rcases Finset.mem_union.1 hx with hfe | hinit
            · exact Or.inr ⟨e, List.mem_cons_self e l, he, hfe⟩
            · exact Or.inl hinit
          · exact Or.inr ⟨e', List.mem_cons_of_mem _ he', hne, hfe⟩
        · rintro (hx | ⟨e', he', hne, hfe⟩)
          · exact Or.inl (Finset.mem_union.2 (Or.inr hx))
          · rcases List.mem_cons.1 he' with rfl | he''
            · exact Or.inl (Finset.mem_union.2 (Or.inl hfe))
            · exact Or.inr ⟨e', he'', hne, hfe⟩

theorem mem_vn_foldr (f : Nat → Finset Int) (l : List Nat) (x : Int) :
    (x ∈ l.foldr (fun e acc => acc ∪ f e) (∅ : Finset Int) ↔
      ∃ e ∈ l, x ∈ f e) := by
  induction l with
  | nil => simp
  | cons e l ih =>
      simp only [List.foldr_cons, Finset.mem_union, ih]
      constructor
      · rintro (⟨e', he', hfe⟩ | hfe)
        · exact ⟨e', List.mem_cons_of_mem _ he', hfe⟩
        · exact ⟨e, List.mem_cons_self e l, hfe⟩
      · rintro ⟨e', he', hfe⟩
        rcases List.mem_cons.1 he' with rfl | he''
        · exact Or.inr hfe
        · exact Or.inl ⟨e', he'', hfe⟩

theorem gatherVn_eq_foldl (m : Mesh) (edge_id : Nat) (endpoint : Int) :
    (veAtI m endpoint).foldl (fun acc e =>
      if e = edge_id then acc else (vnSet m e).1 ∪ (vnSet m e).2 ∪ acc)
      (∅ : Finset Int) = gatherVn m edge_id endpoint := by
  unfold gatherVn
  apply Finset.ext
  intro x
  rw [mem_vn_foldl (fun e => (vnSet m e).1 ∪ (vnSet m e).2) edge_id]
  rw [mem_vn_foldr (fun e => (vnSet m e).1 ∪ (vnSet m e).2)]
  simp only [Finset.not_mem_empty, false_or, List.mem_filter, ne_eq,
    decide_not, decide_eq_true_eq, Bool.not_eq_true']
  constructor
  · rintro ⟨e, he, hne, hx⟩
    exact ⟨e, ⟨he, by simpa using hne⟩, hx⟩
  · rintro ⟨e, ⟨he, hne⟩, hx⟩
    exact ⟨e, he, by simpa using hne, hx⟩

/-- C9: `__is_one_ring_valid(mesh, e)` returns `True` exactly when the set
gathered from the edges incident to each endpoint of `e` (excluding `e`),
intersected across the two endpoints and with `e`'s own endpoints removed,
has exactly 4 vertices; and when the count differs (after both side checks
pass), the collapse attempt is rejected. -/
theorem c9_one_ring_valid (m : Mesh) (edge_id target : Nat)
    (mask : List Bool) (g : Groups)
    (hb : hasBoundaries (poolMeshOperations m mask g).1 edge_id = false)
    (h0 : cleanSide target (poolMeshOperations m mask g).1 edge_id 0 = .ok true)
    (h3 : cleanSide target (poolMeshOperations m mask g).1 edge_id 3 = .ok true)
    (hr : isOneRingValid (poolMeshOperations m mask g).1 edge_id = false) :
    (∀ (m' : Mesh) (e : Nat), isOneRingValid m' e = true ↔
      (oneRingShared m' e).card = 4) ∧
    poolEdge target m edge_id mask g =
      .ok (false, (poolMeshOperations m mask g).1,
           (poolMeshOperations m mask g).2.1,
           (poolMeshOperations m mask g).2.2) := by
  constructor
  · intro m' e
    simp only [isOneRingValid]
    rw [gatherVn_eq_foldl m' e (edgeAt m' e).1,
        gatherVn_eq_foldl m' e (edgeAt m' e).2]
    rw [show ((gatherVn m' e (edgeAt m' e).1 ∩ gatherVn m' e (edgeAt m' e).2) \
          {(edgeAt m' e).1, (edgeAt m' e).2}) = oneRingShared m' e from rfl]
    exact beq_iff_eq
  · simp [poolEdge, hb, h0, h3, hr, Bind.bind, Except.bind]

/-- C9 witness: on the torus mesh, edge 0 passes both side checks but its
shared one-ring set has 6 vertices, so the attempt is rejected without
mutation. -/
theorem c9_one_ring_valid_witness :
    hasBoundaries (poolMeshOperations torusMesh torusMask torusGroups).1 0 =
      false ∧
    isOneRingValid (poolMeshOperations torusMesh torusMask torusGroups).1 0 =
      false ∧
    (oneRingShared torusMesh 0).card = 6 ∧
    poolEdge 6 torusMesh 0 torusMask torusGroups =
      .ok (false, (poolMeshOperations torusMesh torusMask torusGroups).1,
           (poolMeshOperations torusMesh torusMask torusGroups).2.1,
           (poolMeshOperations torusMesh torusMask torusGroups).2.2) :=
  ⟨by decide, by decide, by decide,
   (c9_one_ring_valid torusMesh 0 6 torusMask torusGroups (by decide)
     (by decide) (by decide) (by decide)).2⟩

/-! ## Claim C4: queue exhaustion -/

/-- C4 (amended): the drain loop stops normally only by reaching the
pooling target — a normally returning run satisfies
`edges_count ≤ target` — and when the queue is exhausted while
`edges_count` still exceeds the target, the next `heappop` raises (the
embedded `IndexError`) instead of accepting the exhaustion. -/
theorem c4_exhaustion_theorem (target : Nat) :
    (∀ (m : Mesh) (mask : List Bool) (g : Groups), target < m.edges_count →
      (poolLoop target m [] mask g).1 = .error ("heappop from an empty heap")) ∧
    (∀ (q : List (ℤ × Nat)) (m : Mesh) (mask : List Bool) (g : Groups)
       (res : Mesh × List Bool × Groups),
      (poolLoop target m q mask g).1 = .ok res →
      res.1.edges_count ≤ target) := by
  constructor
  · intro m mask g h
    unfold poolLoop
    rw [if_neg (by omega)]
  · intro q
    induction q with
    | nil =>
        intro m mask g res hres
        unfold poolLoop at hres
        by_cases h : m.edges_count ≤ target
        · rw [if_pos h] at hres
          simp only [Except.ok.injEq] at hres
          rw [← hres]
          exact h
        · rw [if_neg h] at hres
          simp at hres
    | cons entry rest ih =>
        intro m mask g res hres
        unfold poolLoop at hres
        by_cases h : m.edges_count ≤ target
        · rw [if_pos h] at hres
          simp only [Except.ok.injEq] at hres
          rw [← hres]
          exact h
        · rw [if_neg h] at hres
          simp only at hres
          by_cases hm : mask.getD entry.2 false = true
          · rw [if_pos hm] at hres
            rcases he : poolEdge target m entry.2 mask g with s | r
            · rw [he] at hres
              simp at hres
            · rw [he] at hres
              simp only at hres
              exact ih r.2.1 r.2.2.1 r.2.2.2 res hres
          · rw [if_neg hm] at hres
            simp only at hres
            exact ih m mask g res hres

/-- C4 witness: the exhaustion branch errors on the two-edge boundary mesh
with target 1, and a run that starts at the target returns it unchanged. -/
theorem c4_exhaustion_witness :
    1 < boundaryPairMesh.edges_count ∧
    (poolLoop 1 boundaryPairMesh [] (List.replicate 2 true)
      (initGroups 2)).1 = .error ("heappop from an empty heap") ∧
    boundaryPairMesh.edges_count ≤ 2 :=
  ⟨by decide,
   (c4_exhaustion_theorem 1).1 boundaryPairMesh (List.replicate 2 true)
     (initGroups 2) (by decide),
   (c4_exhaustion_theorem 2).2 [] boundaryPairMesh (List.replicate 2 true)
     (initGroups 2) (boundaryPairMesh, List.replicate 2 true, initGroups 2)
     (by decide)⟩

/-- C4 counterexample: pooling the two-boundary-edge mesh toward target 1
pops both entries, collapses nothing, exhausts the queue with
`edges_count = 2 > 1`, and the pass fails with the empty-heap pop instead of
stopping normally with the reduced mesh. -/
theorem c4_exhaustion_counterexample :
    (poolMain 1 [[1, 2]] boundaryPairMesh).1 =
      .error ("heappop from an empty heap") ∧
    1 < boundaryPairMesh.edges_count :=
  ⟨by rfl, by decide⟩

/-! ## Claim C7: pop bound -/

theorem heapInsert_length (a : ℤ × Nat) (l : List (ℤ × Nat)) :
    (heapInsert a l).length = l.length + 1 := by
  induction l with
  | nil => rfl
  | cons b bs ih =>
      unfold heapInsert
      by_cases h : pairLt b a
      · rw [if_pos h]
        simp [ih]
      · rw [if_neg h]
        simp

theorem heapSort_length (q : List (ℤ × Nat)) :
    (heapSort q).length = q.length := by
  unfold heapSort
  induction q with
  | nil => rfl
  | cons a l ih => simp [List.foldr_cons, heapInsert_length, ih]

theorem buildQueue_length (features : List (List ℤ)) (count : Nat) :
    (buildQueue features count).length = count := by
  simp [buildQueue]

/-- C7: for a queue of `E` entries the drain loop performs at most `E` pop
operations — each iteration pops exactly one entry, popped entries are never
re-inserted whatever the attempt's outcome — and hence a full
`__pool_main` run over a mesh with `E` live edges performs at most `E`
pops. -/
theorem c7_pop_bound (target : Nat) (m : Mesh) (q : List (ℤ × Nat))
    (mask : List Bool) (g : Groups) (features : List (List ℤ)) :
    (poolLoop target m q mask g).2 ≤ q.length ∧
    (poolMain target features m).2 ≤ m.edges_count := by
  have hloop : ∀ (q' : List (ℤ × Nat)) (m' : Mesh) (mask' : List Bool)
      (g' : Groups), (poolLoop target m' q' mask' g').2 ≤ q'.length := by
    intro q'
    induction q' with
    | nil =>
        intro m' mask' g'
        unfold poolLoop
        by_cases h : m'.edges_count ≤ target
        · rw [if_pos h]
          simp
        · rw [if_neg h]
          simp
    | cons entry rest ih =>
        intro m' mask' g'
        unfold poolLoop
        by_cases h : m'.edges_count ≤ target
        · rw [if_pos h]
          simp
        · rw [if_neg h]
          simp only
          by_cases hm : mask'.getD entry.2 false = true
          · rw [if_pos hm]
            rcases he : poolEdge target m' entry.2 mask' g' with s | r
            · simp
            · have := ih r.2.1 r.2.2.1 r.2.2.2
              simp only [List.length_cons]
              omega
          · rw [if_neg hm]
            have := ih m' mask' g'
            simp only [List.length_cons]
            omega
  refine ⟨hloop q m mask g, ?_⟩
  have hq := hloop (heapSort (buildQueue features m.edges_count)) m
    (List.replicate m.edges_count true) (initGroups m.edges_count)
  rw [heapSort_length, buildQueue_length] at hq
  simp only [poolMain]
  rcases hr : (poolLoop target m
      (heapSort (buildQueue features m.edges_count))
      (List.replicate m.edges_count true) (initGroups m.edges_count)).1
    with s | res <;>
    simp only [hr] <;> exact hq

/-! ## Claim C5: priority ordering -/

theorem pairLt_irrefl (a : ℤ × Nat) : ¬ pairLt a a := by
  unfold pairLt
  omega

theorem pairLt_trans {a b c : ℤ × Nat} (h1 : pairLt a b) (h2 : pairLt b c) :
    pairLt a c := by
  unfold pairLt at *
  omega

theorem pairLt_total (a b : ℤ × Nat) (h : a ≠ b) : pairLt a b ∨ pairLt b a := by
  rcases a with ⟨a1, a2⟩
  rcases b with ⟨b1, b2⟩
  unfold pairLt
  simp only [ne_eq, Prod.mk.injEq, not_and] at h
  show (a1 < b1 ∨ (a1 = b1 ∧ a2 < b2)) ∨ (b1 < a1 ∨ (b1 = a1 ∧ b2 < a2))
  by_cases h1 : a1 = b1
  · have h2 : a2 ≠ b2 := h h1
    omega
  · omega

theorem notLt_trans {a b c : ℤ × Nat} (h1 : ¬ pairLt b a) (h2 : ¬ pairLt c b) :
    ¬ pairLt c a := by
  intro hca
  by_cases hcb : c = b
  · subst hcb
    exact h1 hca
  · rcases pairLt_total c b hcb with hlt | hgt
    · exact h2 hlt
    · exact h1 (pairLt_trans hgt hca)

theorem heapInsert_mem (a x : ℤ × Nat) (l : List (ℤ × Nat)) :
    x ∈ heapInsert a l ↔ x = a ∨ x ∈ l := by
  induction l with
  | nil => simp [heapInsert]
  | cons b bs ih =>
      unfold heapInsert
      by_cases h : pairLt b a
      · rw [if_pos h]
        simp only [List.mem_cons, ih]
        tauto
      · rw [if_neg h]
        simp only [List.mem_cons]

theorem heapSort_mem (q : List (ℤ × Nat)) (x : ℤ × Nat) :
    x ∈ heapSort q ↔ x ∈ q := by
  unfold heapSort
  induction q with
  | nil => simp
  | cons a l ih =>
      simp only [List.foldr_cons, heapInsert_mem, List.mem_cons, ih]

theorem heapInsert_sorted (a : ℤ × Nat) (l : List (ℤ × Nat))
    (h : l.Sorted (fun x y => ¬ pairLt y x)) :
    (heapInsert a l).Sorted (fun x y => ¬ pairLt y x) := by
  induction l with
  | nil => simp [heapInsert]
  | cons b bs ih =>
      rw [List.sorted_cons] at h
      unfold heapInsert
      by_cases hba : pairLt b a
      · rw [if_pos hba]
        rw [List.sorted_cons]
        constructor
        · intro y hy
          rcases (heapInsert_mem a y bs).1 hy with rfl | hmem
          · intro hab
            exact pairLt_irrefl b (pairLt_trans hba hab)
          · exact h.1 y hmem
        · exact ih h.2
      · rw [if_neg hba]
        rw [List.sorted_cons]
        constructor
        · intro y hy
          rcases List.mem_cons.1 hy with rfl | hmem
          · exact hba
          · exact notLt_trans hba (h.1 y hmem)
        · exact List.sorted_cons.2 h

theorem heapSort_sorted (q : List (ℤ × Nat)) :
    (heapSort q).Sorted (fun x y => ¬ pairLt y x) := by
  unfold heapSort
  induction q with
  | nil => simp
  | cons a l ih => exact heapInsert_sorted a _ ih

/-- C5: the first entry popped from the queue built by `__build_queue` is
the edge of globally minimum squared feature magnitude among the edge
indices below `edges_count`, ties broken by the smaller edge index, because
the heap key is the pair `(squared magnitude, edge id)`. -/
theorem c5_priority_order (features : List (List ℤ)) (count : Nat)
    (h : 0 < count) :
    ∃ i rest, heapSort (buildQueue features count) =
        (sqMag features i, i) :: rest ∧
      i < count ∧
      ∀ j, j < count →
        sqMag features i < sqMag features j ∨
        (sqMag features i = sqMag features j ∧ i ≤ j) := by
  have hlen : (heapSort (buildQueue features count)).length = count := by
    rw [heapSort_length, buildQueue_length]
  rcases hq : heapSort (buildQueue features count) with _ | ⟨b, rest⟩
  · rw [hq] at hlen
    simp at hlen
    omega
  · have hb_mem : b ∈ buildQueue features count := by
      rw [← heapSort_mem]
      rw [hq]
      exact List.mem_cons_self b rest
    have hb_shape : b = (sqMag features b.2, b.2) ∧ b.2 < count := by
      unfold buildQueue at hb_mem
      rcases List.mem_map.1 hb_mem with ⟨e, he, heq⟩
      rw [← heq]
      exact ⟨rfl, List.mem_range.1 he⟩
    have hmin : ∀ y ∈ buildQueue features count, ¬ pairLt y b := by
      intro y hy
      rw [← heapSort_mem, hq] at hy
      rcases List.mem_cons.1 hy with rfl | hy2
      · exact pairLt_irrefl y
      · have hs := heapSort_sorted (buildQueue features count)
        rw [hq, List.sorted_cons] at hs
        exact hs.1 y hy2
    refine ⟨b.2, rest, ?_, hb_shape.2, ?_⟩
    · rw [← hb_shape.1]
    · intro j hj
      have hjm : ((sqMag features j, j) : ℤ × Nat) ∈ buildQueue features count := by
        unfold buildQueue
        exact List.mem_map.2 ⟨j, List.mem_range.2 hj, rfl⟩
      have hnot := hmin _ hjm
      rw [hb_shape.1] at hnot
      unfold pairLt at hnot
      simp only [not_or, not_and, not_lt] at hnot
      rcases lt_trichotomy (sqMag features b.2) (sqMag features j) with hlt | heq | hgt
      · exact Or.inl hlt
      · exact Or.inr ⟨heq, hnot.2 heq.symm⟩
      · exact absurd hgt (not_lt.2 hnot.1)

/-- C5 witness: three edges with squared magnitudes 2, 0, 0 — edge 1 (the
smaller index among the two minimizers) is popped first. -/
theorem c5_priority_order_witness :
    (0 < 3 ∧
      ∃ i rest, heapSort (buildQueue [[1, 0, 0], [-1, 0, 0]] 3) =
          (sqMag [[1, 0, 0], [-1, 0, 0]] i, i) :: rest ∧
        i < 3 ∧
        ∀ j, j < 3 →
          sqMag [[1, 0, 0], [-1, 0, 0]] i < sqMag [[1, 0, 0], [-1, 0, 0]] j ∨
          (sqMag [[1, 0, 0], [-1, 0, 0]] i = sqMag [[1, 0, 0], [-1, 0, 0]] j ∧
           i ≤ j)) :=
  ⟨by decide, c5_priority_order [[1, 0, 0], [-1, 0, 0]] 3 (by decide)⟩

/-! ## Claim C8: removal effects and edge-count monotonicity -/

theorem removeEdge_count (m : Mesh) (e : Nat) (g : Groups) (mask : List Bool) :
    (removeEdge m e g mask).1.edges_count = m.edges_count - 1 := rfl

theorem fixMeshSides_count2 (m : Mesh) (touched : List Int) :
    (fixMeshSides m touched).edges_count = m.edges_count := by
  unfold fixMeshSides
  induction touched generalizing m with
  | nil => rfl
  | cons t ts ih =>
      rw [List.foldl_cons]
      exact ih _

theorem doubletRewire_count_aux (ring : List Int) (e1 e2 : Nat) :
    ∀ (l : List Int) (m : Mesh),
    (l.foldl (doubletRewireStep ring e1 e2) m).edges_count =
      m.edges_count := by
  intro l
  induction l with
  | nil =>
      intro m
      rfl
  | cons a as ih =>
      intro m
      rw [List.foldl_cons]
      exact ih _

theorem doubletRewire_count (ring : List Int) (e1 e2 : Nat) (m : Mesh) :
    (doubletRewire m ring e1 e2).edges_count = m.edges_count := by
  unfold doubletRewire
  exact doubletRewire_count_aux ring e1 e2 ring m

theorem clearDoubletPair_mesh (m : Mesh) (mask : List Bool) (g : Groups)
    (pair : Nat × Nat) :
    (clearDoubletPair m mask g pair).1 =
      fixMeshSides
        (removeEdge
          (removeEdge (doubletRewire m (doubletRing m pair.1 pair.2)
            pair.1 pair.2) pair.1 g mask).1
          pair.2
          (removeEdge (doubletRewire m (doubletRing m pair.1 pair.2)
            pair.1 pair.2) pair.1 g mask).2.1
          (removeEdge (doubletRewire m (doubletRing m pair.1 pair.2)
            pair.1 pair.2) pair.1 g mask).2.2).1
        (doubletRing m pair.1 pair.2) := rfl

theorem clearDoubletPair_count (m : Mesh) (mask : List Bool) (g : Groups)
    (pair : Nat × Nat) :
    (clearDoubletPair m mask g pair).1.edges_count = m.edges_count - 1 - 1 := by
  rw [clearDoubletPair_mesh, fixMeshSides_count2, removeEdge_count,
    removeEdge_count, doubletRewire_count]

theorem doubletFoldStep_count (st : Mesh × List Bool × Groups)
    (pair : Nat × Nat) :
    ((clearDoubletPair st.1 st.2.1 st.2.2 pair).1).edges_count =
      st.1.edges_count - 1 - 1 :=
  clearDoubletPair_count st.1 st.2.1 st.2.2 pair

theorem poolDoublets_count_le (m : Mesh) (mask : List Bool) (g : Groups)
    (vs : Option (List Nat)) :
    (poolDoublets m mask g vs).2.1.edges_count ≤ m.edges_count := by
  unfold poolDoublets
  by_cases h : (findDoublets m vs).1.length = 0
  · rw [if_pos h]
  · rw [if_neg h]
    simp only
    have hfold : ∀ (pairs : List (Nat × Nat)) (st : Mesh × List Bool × Groups),
        (pairs.foldl (fun st pair =>
          let r := clearDoubletPair st.1 st.2.1 st.2.2 pair
          let d0 := r.2.2.2.1
          let d3 := r.2.2.2.2
          let g2 := d0.foldl (fun gg kv => unionG gg kv.1 kv.2) r.2.2.1
          let g3 := d3.foldl (fun gg kv => unionG gg kv.1 kv.2) g2
          let g4 := removeGroupG (removeGroupG g3 pair.1) pair.2
          (r.1, r.2.1, g4)) st).1.edges_count ≤ st.1.edges_count := by
      intro pairs
      induction pairs with
      | nil => intro st; exact Nat.le_refl _
      | cons p ps ih =>
          intro st
          rw [List.foldl_cons]
          refine le_trans (ih _) ?_
          simp only [clearDoubletPair_count]
          omega
    exact hfold _ _

theorem poolDoublets_count_lt (m : Mesh) (mask : List Bool) (g : Groups)
    (vs : Option (List Nat)) (h0 : 0 < m.edges_count)
    (hf : (poolDoublets m mask g vs).1 = true) :
    (poolDoublets m mask g vs).2.1.edges_count < m.edges_count := by
  unfold poolDoublets at *
  by_cases h : (findDoublets m vs).1.length = 0
  · rw [if_pos h] at hf
    simp at hf
  · rw [if_neg h]
    simp only
    have hne : (findDoublets m vs).2 ≠ [] := by
      intro hnil
      have hlen : (findDoublets m vs).2.length = (findDoublets m vs).1.length := by
        unfold findDoublets
        simp
      rw [hnil] at hlen
      simp at hlen
      exact h hlen.symm
    rcases hp : (findDoublets m vs).2 with _ | ⟨p, ps⟩
    · exact absurd hp hne
    · rw [List.foldl_cons]
      have hfold : ∀ (pairs : List (Nat × Nat)) (st : Mesh × List Bool × Groups),
          (pairs.foldl (fun st pair =>
            let r := clearDoubletPair st.1 st.2.1 st.2.2 pair
            let d0 := r.2.2.2.1
            let d3 := r.2.2.2.2
            let g2 := d0.foldl (fun gg kv => unionG gg kv.1 kv.2) r.2.2.1
            let g3 := d3.foldl (fun gg kv => unionG gg kv.1 kv.2) g2
            let g4 := removeGroupG (removeGroupG g3 pair.1) pair.2
            (r.1, r.2.1, g4)) st).1.edges_count ≤ st.1.edges_count := by
        intro pairs
        induction pairs with
        | nil => intro st; exact Nat.le_refl _
        | cons q qs ih =>
            intro st
            rw [List.foldl_cons]
            refine le_trans (ih _) ?_
            simp only [clearDoubletPair_count]
            omega
      refine lt_of_le_of_lt (hfold ps _) ?_
      simp only [clearDoubletPair_count]
      omega

theorem poolMeshOperationsFuel_count_le :
    ∀ (fuel : Nat) (m : Mesh) (mask : List Bool) (g : Groups),
      (poolMeshOperationsFuel fuel m mask g).1.edges_count ≤ m.edges_count := by
  intro fuel
  induction fuel with
  | zero => intro m mask g; exact Nat.le_refl _
  | succ n ih =>
      intro m mask g
      unfold poolMeshOperationsFuel
      by_cases h : (poolDoublets m mask g none).1 = true
      · rw [if_pos h]
        exact le_trans (ih _ _ _) (poolDoublets_count_le m mask g none)
      · rw [if_neg h]
        exact poolDoublets_count_le m mask g none

theorem poolMeshOperations_count_le (m : Mesh) (mask : List Bool)
    (g : Groups) :
    (poolMeshOperations m mask g).1.edges_count ≤ m.edges_count :=
  poolMeshOperationsFuel_count_le _ m mask g

theorem classifyStep_mesh (u v : Nat) (diag : List Int) (st : CollapseSt)
    (e : Nat) :
    (collapseClassifyStep u v diag st e).mesh =
      (if collapseCond st.mesh v diag e then
        (removeEdge st.mesh e st.groups st.mask).1
       else
        (let m1 := { st.mesh with
          ve := st.mesh.ve.set v ((veAt st.mesh v).erase e) }
         let m2 := { m1 with ve := m1.ve.set u ((veAt m1 u) ++ [e]) }
         if (edgeAt m2 e).1 = (v : Int) then
           { m2 with edges := m2.edges.set e ((u : Int), (edgeAt m2 e).2) }
         else
           { m2 with edges := m2.edges.set e ((edgeAt m2 e).1, (u : Int)) })) := by
  unfold collapseClassifyStep collapseCond
  by_cases h :
      ((if (edgeAt st.mesh e).1 = (v : Int) then (edgeAt st.mesh e).2
        else (edgeAt st.mesh e).1) ∈ diag ∨
       (if (edgeAt st.mesh e).1 = (v : Int) then ((v : Nat) : Int)
        else (edgeAt st.mesh e).2) ∈ diag)
  · rw [if_pos h, if_pos h]
  · rw [if_neg h, if_neg h]

theorem classifyStep_count_le (u v : Nat) (diag : List Int) (st : CollapseSt)
    (e : Nat) :
    (collapseClassifyStep u v diag st e).mesh.edges_count ≤
      st.mesh.edges_count := by
  rw [classifyStep_mesh]
  by_cases h : collapseCond st.mesh v diag e
  · rw [if_pos h, removeEdge_count]
    omega
  · rw [if_neg h]
    simp only
    by_cases h2 : (edgeAt { st.mesh with
        ve := (st.mesh.ve.set v ((veAt st.mesh v).erase e)).set u
          ((veAt { st.mesh with
            ve := st.mesh.ve.set v ((veAt st.mesh v).erase e) } u) ++ [e]) } e).1
        = (v : Int)
    · rw [if_pos h2]
    · rw [if_neg h2]

theorem classifyStep_count_of_cond (u v : Nat) (diag : List Int)
    (st : CollapseSt) (e : Nat) (h : collapseCond st.mesh v diag e) :
    (collapseClassifyStep u v diag st e).mesh.edges_count =
      st.mesh.edges_count - 1 := by
  rw [classifyStep_mesh, if_pos h, removeEdge_count]

theorem classifyStep_edgeAt_ne (u v : Nat) (diag : List Int)
    (st : CollapseSt) (e e' : Nat) (hne : e' ≠ e) :
    edgeAt (collapseClassifyStep u v diag st e).mesh e' =
      edgeAt st.mesh e' := by
  rw [classifyStep_mesh]
  by_cases h : collapseCond st.mesh v diag e
  · rw [if_pos h]
    show ((removeEdge st.mesh e st.groups st.mask).1.edges.getD e' (-1, -1)) = _
    unfold removeEdge meshRemoveEdgeVe meshUnionGroups
    simp only
    rw [getD_set_ne' _ e e' _ _ (fun hh => hne hh.symm)]
    rfl
  · rw [if_neg h]
    simp only
    by_cases h2 : (edgeAt { st.mesh with
        ve := (st.mesh.ve.set v ((veAt st.mesh v).erase e)).set u
          ((veAt { st.mesh with
            ve := st.mesh.ve.set v ((veAt st.mesh v).erase e) } u) ++ [e]) } e).1
        = (v : Int)
    · rw [if_pos h2]
      show (_ : Mesh).edges.getD e' (-1, -1) = _
      simp only
      rw [getD_set_ne' _ e e' _ _ (fun hh => hne hh.symm)]
      rfl
    · rw [if_neg h2]
      show (_ : Mesh).edges.getD e' (-1, -1) = _
      simp only
      rw [getD_set_ne' _ e e' _ _ (fun hh => hne hh.symm)]
      rfl

theorem classifyFold_count_le (u v : Nat) (diag : List Int) :
    ∀ (l : List Nat) (st : CollapseSt),
      (l.foldl (collapseClassifyStep u v diag) st).mesh.edges_count ≤
        st.mesh.edges_count := by
  intro l
  induction l with
  | nil => intro st; exact Nat.le_refl _
  | cons e l ih =>
      intro st
      rw [List.foldl_cons]
      exact le_trans (ih _) (classifyStep_count_le u v diag st e)

theorem classifyFold_count_lt (u v : Nat) (diag : List Int) :
    ∀ (l : List Nat) (st : CollapseSt), l.Nodup →
      0 < st.mesh.edges_count →
      (∃ e ∈ l, collapseCond st.mesh v diag e) →
      (l.foldl (collapseClassifyStep u v diag) st).mesh.edges_count <
        st.mesh.edges_count := by
  intro l
  induction l with
  | nil =>
      intro st _ _ hex
      simp at hex
  | cons e l ih =>
      intro st hnd h0 hex
      rw [List.foldl_cons]
      rw [List.nodup_cons] at hnd
      by_cases hc : collapseCond st.mesh v diag e
      · refine lt_of_le_of_lt (classifyFold_count_le u v diag l _) ?_
        rw [classifyStep_count_of_cond u v diag st e hc]
        omega
      · rcases hex with ⟨e', he', hcond⟩
        rcases List.mem_cons.1 he' with rfl | he2
        · exact absurd hcond hc
        · have hne : e' ≠ e := fun hh => hnd.1 (hh ▸ he2)
          have hpres : collapseCond
              (collapseClassifyStep u v diag st e).mesh v diag e' := by
            unfold collapseCond at *
            rw [classifyStep_edgeAt_ne u v diag st e e' hne]
            exact hcond
          have hcount : (collapseClassifyStep u v diag st e).mesh.edges_count =
              st.mesh.edges_count := by
            rw [classifyStep_mesh, if_neg hc]
            simp only
            by_cases h2 : (edgeAt { st.mesh with
                ve := (st.mesh.ve.set v ((veAt st.mesh v).erase e)).set u
                  ((veAt { st.mesh with
                    ve := st.mesh.ve.set v ((veAt st.mesh v).erase e) } u)
                    ++ [e]) } e).1 = (v : Int)
            · rw [if_pos h2]
            · rw [if_neg h2]
          have := ih (collapseClassifyStep u v diag st e) hnd.2
            (by omega) ⟨e', he2, hpres⟩
          omega

theorem foldlM_preserve {α β : Type} (P : α → Prop)
    (f : α → β → Except String α)
    (hf : ∀ a b a', f a b = .ok a' → P a → P a') :
    ∀ (l : List β) (a a' : α), l.foldlM f a = .ok a' → P a → P a' := by
  intro l
  induction l with
  | nil =>
      intro a a' h hP
      simp only [List.foldlM, Pure.pure, Except.pure, Except.ok.injEq] at h
      rw [← h]
      exact hP
  | cons b bs ih =>
      intro a a' h hP
      rw [List.foldlM_cons] at h
      rcases hab : f a b with s | a1
      · rw [hab] at h
        simp [Bind.bind, Except.bind] at h
      · rw [hab] at h
        simp only [Bind.bind, Except.bind] at h
        exact ih a1 a' h (hf a b a1 hab hP)


theorem reconnectStep_count (old : Mesh) (cmap : List (Nat × Nat))
    (edge : Int) (mm : Mesh) (c : Nat) (mm' : Mesh)
    (h : reconnectStep old cmap edge mm c = .ok mm') :
    mm'.edges_count = mm.edges_count := by
  unfold reconnectStep at h
  by_cases hin : (pyRow old.gemm_edges edge).any (fun hh => hh = (c : Int)) = true
  · rw [if_pos hin] at h
    simp only [Bind.bind, Except.bind] at h
    rcases hf : cmapFind cmap c with s | absorber
    · rw [hf] at h
      simp at h
    · rw [hf] at h
      simp only [Except.ok.injEq] at h
      rw [← h]
  · rw [if_neg hin] at h
    simp only [Except.ok.injEq] at h
    rw [← h]

theorem repairReconnectInner_count (old : Mesh) (cmap : List (Nat × Nat))
    (eToCollapse : List Nat) (st : Mesh × List Int) (edge : Int)
    (st' : Mesh × List Int)
    (h : repairReconnectInner old cmap eToCollapse st edge = .ok st') :
    st'.1.edges_count = st.1.edges_count := by
  unfold repairReconnectInner at h
  by_cases hskip :
      edge ∈ st.2 ∨ eToCollapse.any (fun c => (c : Int) = edge) = true
  · rw [if_pos hskip] at h
    simp only [Except.ok.injEq] at h
    rw [← h]
  · rw [if_neg hskip] at h
    simp only [Bind.bind, Except.bind] at h
    rcases hfold : eToCollapse.foldlM (reconnectStep old cmap edge) st.1
      with s | m1
    · rw [hfold] at h
      simp at h
    · rw [hfold] at h
      simp only [Except.ok.injEq] at h
      rw [← h]
      exact foldlM_preserve (fun mm => mm.edges_count = st.1.edges_count)
        (reconnectStep old cmap edge)
        (fun a b a' hab hP =>
          (reconnectStep_count old cmap edge a b a' hab).trans hP)
        eToCollapse st.1 m1 hfold rfl

theorem repairReconnect_count (old : Mesh) (cmap : List (Nat × Nat))
    (eToCollapse eToReconnect : List Nat) (m : Mesh)
    (st' : Mesh × List Int)
    (h : repairReconnect old cmap eToCollapse eToReconnect m = .ok st') :
    st'.1.edges_count = m.edges_count := by
  unfold repairReconnect at h
  refine foldlM_preserve (fun st => st.1.edges_count = m.edges_count)
    _ ?_ eToReconnect (m, ([] : List Int)) st' h rfl
  intro a b a' hab hP
  rcases hinner : ((((b : Nat) : Int)) ::
      pyRow old.gemm_edges ((b : Nat) : Int)).foldlM
      (repairReconnectInner old cmap eToCollapse) a with s | a2
  · rw [hinner] at hab
    simp at hab
  · rw [hinner] at hab
    simp only [Except.ok.injEq] at hab
    rw [← hab]
    rw [foldlM_preserve (fun st => st.1.edges_count = a.1.edges_count)
      (repairReconnectInner old cmap eToCollapse)
      (fun x y x' hxy hP2 =>
        (repairReconnectInner_count old cmap eToCollapse x y x' hxy).trans hP2)
      _ a a2 hinner rfl]
    exact hP

theorem absorberStep_count (old : Mesh) (cmap : List (Nat × Nat))
    (st : Mesh × List Int) (kv : Nat × Nat) (st' : Mesh × List Int)
    (h : absorberStep old cmap st kv = .ok st') :
    st'.1.edges_count = st.1.edges_count := by
  unfold absorberStep at h
  simp only [Bind.bind, Except.bind] at h
  by_cases h1 : ((kv.1 : Nat) : Int) ∈ (rowN old kv.2).take 3
  · rw [if_pos h1] at h
    simp only [Except.ok.injEq] at h
    rw [← h]
  · rw [if_neg h1] at h
    by_cases h2 : ((kv.1 : Nat) : Int) ∈ (rowN old kv.2).drop 3
    · rw [if_pos h2] at h
      simp only [Except.ok.injEq] at h
      rw [← h]
    · rw [if_neg h2] at h
      simp at h

theorem repairAbsorbers_count (old : Mesh) (cmap : List (Nat × Nat))
    (st0 : Mesh × List Int) (st' : Mesh × List Int)
    (h : repairAbsorbers old cmap st0 = .ok st') :
    st'.1.edges_count = st0.1.edges_count := by
  unfold repairAbsorbers at h
  exact foldlM_preserve (fun st => st.1.edges_count = st0.1.edges_count)
    (absorberStep old cmap)
    (fun a b a' hab hP =>
      (absorberStep_count old cmap a b a' hab).trans hP)
    cmap st0 st' h rfl

theorem fixMeshSides_count (m : Mesh) (touched : List Int) :
    (fixMeshSides m touched).edges_count = m.edges_count := by
  unfold fixMeshSides
  induction touched generalizing m with
  | nil => rfl
  | cons t ts ih =>
      rw [List.foldl_cons]
      exact ih _

theorem mergeVertices_count (m : Mesh) (u v : Nat) :
    (mergeVertices m u v).edges_count = m.edges_count := rfl

theorem fixMeshHoodOrder_count (m : Mesh) (touched : List Int) :
    (fixMeshHoodOrder m touched).edges_count = m.edges_count := rfl

theorem collapseOtherVertexV_count (m : Mesh) (u v : Nat) (e_v : List Nat)
    (diag : List Int) (dict : List (Nat × List Nat)) (g : Groups)
    (mask : List Bool) (r : Mesh × List Bool × Groups × List (Nat × List Nat))
    (h : collapseOtherVertexV m u v e_v diag dict g mask = .ok r) :
    r.1.edges_count ≤ m.edges_count ∧
    (0 < m.edges_count →
      ((poolDoublets m mask g (some [v])).1 = true ∨
       (e_v.Nodup ∧ ∃ e ∈ e_v, collapseCond m v diag e)) →
      r.1.edges_count < m.edges_count) := by
  unfold collapseOtherVertexV at h
  by_cases hd : (poolDoublets m mask g (some [v])).1 = true
  · rw [if_pos hd] at h
    simp only [Except.ok.injEq] at h
    rw [← h]
    refine ⟨poolDoublets_count_le m mask g (some [v]), ?_⟩
    intro h0 _
    exact poolDoublets_count_lt m mask g (some [v]) h0 hd
  · rw [if_neg hd] at h
    simp only [Bind.bind, Except.bind] at h
    rcases h1 : repairReconnect m
        (e_v.foldl (collapseClassifyStep u v diag) ⟨m, mask, g, dict, [], [], []⟩).cmap
        (e_v.foldl (collapseClassifyStep u v diag) ⟨m, mask, g, dict, [], [], []⟩).eToCollapse
        (e_v.foldl (collapseClassifyStep u v diag) ⟨m, mask, g, dict, [], [], []⟩).eToReconnect
        (e_v.foldl (collapseClassifyStep u v diag) ⟨m, mask, g, dict, [], [], []⟩).mesh
      with s | r1
    · rw [h1] at h
      simp at h
    · rw [h1] at h
      simp only [Bind.bind, Except.bind] at h
      rcases h2 : repairAbsorbers m
          (e_v.foldl (collapseClassifyStep u v diag) ⟨m, mask, g, dict, [], [], []⟩).cmap
          r1 with s | r2
      · rw [h2] at h
        simp at h
      · rw [h2] at h
        simp only [Except.ok.injEq] at h
        have hcount : r.1.edges_count =
            (e_v.foldl (collapseClassifyStep u v diag)
              ⟨m, mask, g, dict, [], [], []⟩).mesh.edges_count := by
          rw [← h]
          simp only [mergeVertices_count, fixMeshSides_count,
            fixMeshHoodOrder_count]
          rw [repairAbsorbers_count _ _ _ _ h2,
            repairReconnect_count _ _ _ _ _ _ h1]
        rw [hcount]
        constructor
        · exact classifyFold_count_le u v diag e_v _
        · intro h0 hex
          rcases hex with hdd | ⟨hnd, hexx⟩
          · exact absurd hdd hd
          · exact classifyFold_count_lt u v diag e_v _ hnd h0 hexx

theorem edgeRotations_mesh (m : Mesh) (edge_id u : Nat) :
    (edgeRotations m edge_id u).1 = m := by
  unfold edgeRotations
  simp only
  split <;> rfl

/-- A collapse attempt that returns `False` from inside `__edge_collapse`
(failed u-v boundary validation, or a rotation that yields no diagonal
pair) leaves the mesh, mask and groups exactly as it received them. -/
theorem edgeCollapse_false (edge_id : Nat) (m : Mesh) (mask : List Bool)
    (g : Groups) (m2 : Mesh) (mask2 : List Bool) (g2 : Groups)
    (h : edgeCollapse edge_id m mask g = .ok (false, m2, mask2, g2)) :
    m2 = m ∧ mask2 = mask ∧ g2 = g := by
  unfold edgeCollapse at h
  simp only [Bind.bind, Except.bind] at h
  by_cases hchk : (checkUVBoundaries m (getEdgeHoodInfo m edge_id)).1 = true
  · rw [if_pos hchk] at h
    rcases hrot : (edgeRotations m edge_id
        (checkUVBoundaries m (getEdgeHoodInfo m edge_id)).2.1).2.2 with _ | diag
    · rw [hrot] at h
      have hm := edgeRotations_mesh m edge_id
        (checkUVBoundaries m (getEdgeHoodInfo m edge_id)).2.1
      simp only [Except.ok.injEq, Prod.mk.injEq] at h
      exact ⟨h.2.1.symm.trans hm, h.2.2.1.symm, h.2.2.2.symm⟩
    · rw [hrot] at h
      dsimp only at h
      split at h
      · exact absurd h (by simp)
      · simp only [Except.ok.injEq, Prod.mk.injEq] at h
        exact absurd h.1 (by simp)
  · rw [if_neg hchk] at h
    simp only [Except.ok.injEq, Prod.mk.injEq] at h
    exact ⟨h.2.1.symm, h.2.2.1.symm, h.2.2.2.symm⟩

/-- C2 (amended): whenever `__pool_edge` returns failure (`False`) — at the
boundary check, either side-cleanliness check, the one-ring check, or from
inside `__edge_collapse` (failed u-v boundary validation or a rotation that
yields no diagonal pair) — the mesh (hence `edges_count`, `gemm_edges`,
`ve` and `sides`), the mask and the groups it hands back are identical to
before the attempt, provided the doublet normalization that `__pool_edge`
runs at the start of the attempt finds nothing to clear. -/
theorem c2_no_op_on_rejection (target : Nat) (m : Mesh) (edge_id : Nat)
    (mask : List Bool) (g : Groups) (m2 : Mesh) (mask2 : List Bool)
    (g2 : Groups)
    (hnd : (findDoublets m none).1.length = 0)
    (hres : poolEdge target m edge_id mask g = .ok (false, m2, mask2, g2)) :
    m2 = m ∧ mask2 = mask ∧ g2 = g := by
  have hid := poolMeshOperations_id m mask g hnd
  unfold poolEdge at hres
  simp only [hid, Bind.bind, Except.bind] at hres
  by_cases hb : hasBoundaries m edge_id = true
  · rw [if_pos hb] at hres
    simp only [Except.ok.injEq, Prod.mk.injEq] at hres
    exact ⟨hres.2.1.symm, hres.2.2.1.symm, hres.2.2.2.symm⟩
  · rw [if_neg hb] at hres
    rcases hc0 : cleanSide target m edge_id 0 with s | b0
    · rw [hc0] at hres
      exact absurd hres (by simp)
    · rw [hc0] at hres
      dsimp only at hres
      cases b0 with
      | false =>
          simp only [if_neg (by simp : ¬(false = true)),
            Except.ok.injEq, Prod.mk.injEq] at hres
          exact ⟨hres.2.1.symm, hres.2.2.1.symm, hres.2.2.2.symm⟩
      | true =>
          rw [if_pos rfl] at hres
          rcases hc3 : cleanSide target m edge_id 3 with s | b3
          · rw [hc3] at hres
            exact absurd hres (by simp)
          · rw [hc3] at hres
            dsimp only at hres
            cases b3 with
            | false =>
                simp only [if_neg (by simp : ¬(false = true)),
                  Except.ok.injEq, Prod.mk.injEq] at hres
                exact ⟨hres.2.1.symm, hres.2.2.1.symm, hres.2.2.2.symm⟩
            | true =>
                rw [if_pos rfl] at hres
                by_cases hor : isOneRingValid m edge_id = true
                · rw [if_pos hor] at hres
                  rcases hec : edgeCollapse edge_id m mask g with s | r
                  · rw [hec] at hres
                    exact absurd hres (by simp)
                  · rw [hec] at hres
                    dsimp only at hres
                    simp only [Except.ok.injEq, Prod.mk.injEq] at hres
                    have hst : r.1 = false := hres.1
                    have hr : edgeCollapse edge_id m mask g =
                        .ok (false, r.2.1, r.2.2.1, r.2.2.2) := by
                      rw [hec, ← hst]
                    obtain ⟨hm0, hmask0, hg0⟩ :=
                      edgeCollapse_false edge_id m mask g _ _ _ hr
                    rw [hm0, hmask0, hg0, hid] at hres
                    exact ⟨hres.2.1.symm, hres.2.2.1.symm, hres.2.2.2.symm⟩
                · rw [if_neg hor] at hres
                  simp only [Except.ok.injEq, Prod.mk.injEq] at hres
                  exact ⟨hres.2.1.symm, hres.2.2.1.symm, hres.2.2.2.symm⟩

/-- C2 witness: on the doublet-free two-edge boundary mesh the attempt on
edge 0 returns failure, and the theorem yields that mesh, mask and groups
are handed back unchanged. -/
theorem c2_no_op_witness :
    (findDoublets boundaryPairMesh none).1.length = 0 ∧
    poolEdge 1 boundaryPairMesh 0 (List.replicate 2 true) (initGroups 2) =
      .ok (false, boundaryPairMesh, List.replicate 2 true, initGroups 2) ∧
    (boundaryPairMesh = boundaryPairMesh ∧
     List.replicate 2 true = List.replicate 2 true ∧
     initGroups 2 = initGroups 2) :=
  ⟨by decide, by decide,
   c2_no_op_on_rejection 1 boundaryPairMesh 0 (List.replicate 2 true)
     (initGroups 2) boundaryPairMesh (List.replicate 2 true) (initGroups 2)
     (by decide) (by decide)⟩

theorem edgeCollapse_count (edge_id : Nat) (m : Mesh) (mask : List Bool)
    (g : Groups) (r : Bool × Mesh × List Bool × Groups)
    (h : edgeCollapse edge_id m mask g = .ok r) :
    r.2.1.edges_count ≤ m.edges_count ∧
    (r.1 = true → 0 < m.edges_count →
      (∀ diag,
        (edgeRotations m edge_id (edgeAt m edge_id).1.toNat).2.2 = some diag →
        ((poolDoublets m mask g
            (some [(edgeAt m edge_id).2.toNat])).1 = true ∨
         ((veAt m (edgeAt m edge_id).2.toNat).Nodup ∧
          ∃ e ∈ veAt m (edgeAt m edge_id).2.toNat,
            collapseCond m (edgeAt m edge_id).2.toNat diag e))) →
      r.2.1.edges_count < m.edges_count) := by
  unfold edgeCollapse at h
  by_cases hchk : (checkUVBoundaries m (getEdgeHoodInfo m edge_id)).1 = true
  · rw [if_pos hchk] at h
    simp only at h
    rcases hrot : (edgeRotations m edge_id
        (checkUVBoundaries m (getEdgeHoodInfo m edge_id)).2.1).2.2
      with _ | diag
    · rw [hrot] at h
      simp only [Except.ok.injEq] at h
      rw [← h]
      refine ⟨?_, fun htrue => by simp at htrue⟩
      show (edgeRotations m edge_id
        (checkUVBoundaries m (getEdgeHoodInfo m edge_id)).2.1).1.edges_count ≤
        m.edges_count
      rw [edgeRotations_mesh]
    · rw [hrot] at h
      simp only [Bind.bind, Except.bind] at h
      rcases hco : collapseOtherVertexV
          (edgeRotations m edge_id
            (checkUVBoundaries m (getEdgeHoodInfo m edge_id)).2.1).1
          (checkUVBoundaries m (getEdgeHoodInfo m edge_id)).2.1
          (checkUVBoundaries m (getEdgeHoodInfo m edge_id)).2.2.2.2.1
          (veAt (edgeRotations m edge_id
            (checkUVBoundaries m (getEdgeHoodInfo m edge_id)).2.1).1
            (checkUVBoundaries m (getEdgeHoodInfo m edge_id)).2.2.2.2.1)
          diag
          (edgeRotations m edge_id
            (checkUVBoundaries m (getEdgeHoodInfo m edge_id)).2.1).2.1
          g mask with s | rr
      · rw [hco] at h
        simp at h
      · rw [hco] at h
        simp only [Except.ok.injEq] at h
        have hrot1 : (edgeRotations m edge_id
            (checkUVBoundaries m (getEdgeHoodInfo m edge_id)).2.1).1 = m :=
          edgeRotations_mesh m edge_id _
        have hcc := collapseOtherVertexV_count _ _ _ _ _ _ _ _ _ hco
        rw [hrot1] at hcc
        constructor
        · rw [← h]
          exact hcc.1
        · intro _ h0 hex
          rw [← h]
          exact hcc.2 h0 (hex diag hrot)
  · rw [if_neg hchk] at h
    simp only [Except.ok.injEq] at h
    rw [← h]
    exact ⟨Nat.le_refl _, fun htrue => by simp at htrue⟩

theorem poolEdge_count_le (target : Nat) (m : Mesh) (edge_id : Nat)
    (mask : List Bool) (g : Groups) (r : Bool × Mesh × List Bool × Groups)
    (h : poolEdge target m edge_id mask g = .ok r) :
    r.2.1.edges_count ≤ m.edges_count := by
  unfold poolEdge at h
  simp only at h
  have hp : (poolMeshOperations m mask g).1.edges_count ≤ m.edges_count :=
    poolMeshOperations_count_le m mask g
  by_cases hb : hasBoundaries (poolMeshOperations m mask g).1 edge_id = true
  · rw [if_pos hb] at h
    simp only [Except.ok.injEq] at h
    rw [← h]
    exact hp
  · rw [if_neg hb] at h
    simp only [Bind.bind, Except.bind] at h
    rcases hc0 : cleanSide target (poolMeshOperations m mask g).1 edge_id 0
      with s | c0
    · rw [hc0] at h
      simp at h
    · rw [hc0] at h
      simp only at h
      by_cases hc0t : c0 = true
      · rw [if_pos hc0t] at h
        rcases hc3 : cleanSide target (poolMeshOperations m mask g).1 edge_id 3
          with s | c3
        · rw [hc3] at h
          simp at h
        · rw [hc3] at h
          simp only at h
          by_cases hc3t : c3 = true
          · rw [if_pos hc3t] at h
            by_cases hor :
                isOneRingValid (poolMeshOperations m mask g).1 edge_id = true
            · rw [if_pos hor] at h
              rcases hec : edgeCollapse edge_id (poolMeshOperations m mask g).1
                  (poolMeshOperations m mask g).2.1
                  (poolMeshOperations m mask g).2.2 with s | rr
              · rw [hec] at h
                simp at h
              · rw [hec] at h
                simp only [Except.ok.injEq] at h
                rw [← h]
                refine le_trans (le_trans
                  (poolMeshOperations_count_le rr.2.1 rr.2.2.1 rr.2.2.2) ?_) hp
                exact (edgeCollapse_count edge_id _ _ _ rr hec).1
            · rw [if_neg hor] at h
              simp only [Except.ok.injEq] at h
              rw [← h]
              exact hp
          · rw [if_neg hc3t] at h
            simp only [Except.ok.injEq] at h
            rw [← h]
            exact hp
      · rw [if_neg hc0t] at h
        simp only [Except.ok.injEq] at h
        rw [← h]
        exact hp

theorem poolLoop_count_le (target : Nat) :
    ∀ (q : List (ℤ × Nat)) (m : Mesh) (mask : List Bool) (g : Groups)
      (res : Mesh × List Bool × Groups),
      (poolLoop target m q mask g).1 = .ok res →
      res.1.edges_count ≤ m.edges_count := by
  intro q
  induction q with
  | nil =>
      intro m mask g res h
      unfold poolLoop at h
      by_cases ht : m.edges_count ≤ target
      · rw [if_pos ht] at h
        simp only [Except.ok.injEq] at h
        rw [← h]
      · rw [if_neg ht] at h
        simp at h
  | cons entry rest ih =>
      intro m mask g res h
      unfold poolLoop at h
      by_cases ht : m.edges_count ≤ target
      · rw [if_pos ht] at h
        simp only [Except.ok.injEq] at h
        rw [← h]
      · rw [if_neg ht] at h
        simp only at h
        by_cases hm : mask.getD entry.2 false = true
        · rw [if_pos hm] at h
          rcases he : poolEdge target m entry.2 mask g with s | rr
          · rw [he] at h
            simp at h
          · rw [he] at h
            simp only at h
            exact le_trans (ih rr.2.1 rr.2.2.1 rr.2.2.2 res h)
              (poolEdge_count_le target m entry.2 mask g rr he)
        · rw [if_neg hm] at h
          simp only at h
          exact ih m mask g res h

/-- C8: `MeshPool.remove_edge` marks the edge dead in the mask, writes the
`(-1, -1)` sentinel pair, clears all six `gemm_edges` slots and decreases
`edges_count` by exactly 1; `edges_count` strictly decreases with every
doublet removal and with every successful collapse (the latter given a
nonempty live edge population and an edge of `v` anchored at a diagonal
vertex — the configuration a valid quad one-ring provides), and it never
increases across a pooling run. -/
theorem c8_remove_edge_theorem (m : Mesh) (e : Nat) (g : Groups)
    (mask : List Bool)
    (h1 : e < m.edges.length) (h2 : e < m.gemm_edges.length)
    (h3 : e < mask.length) (h4 : 0 < m.edges_count) :
    ((removeEdge m e g mask).2.2.getD e true = false ∧
     (removeEdge m e g mask).1.edges.getD e (0, 0) = (-1, -1) ∧
     (removeEdge m e g mask).1.gemm_edges.getD e [] =
       [-1, -1, -1, -1, -1, -1] ∧
     (removeEdge m e g mask).1.edges_count + 1 = m.edges_count) ∧
    (∀ (m' : Mesh) (mask' : List Bool) (g' : Groups)
       (vs : Option (List Nat)), 0 < m'.edges_count →
      (poolDoublets m' mask' g' vs).1 = true →
      (poolDoublets m' mask' g' vs).2.1.edges_count < m'.edges_count) ∧
    (∀ (edge_id : Nat) (m' : Mesh) (mask' : List Bool) (g' : Groups)
       (r : Bool × Mesh × List Bool × Groups),
      edgeCollapse edge_id m' mask' g' = .ok r → r.1 = true →
      0 < m'.edges_count →
      (∀ diag, (edgeRotations m' edge_id (edgeAt m' edge_id).1.toNat).2.2 =
          some diag →
        ((poolDoublets m' mask' g'
            (some [(edgeAt m' edge_id).2.toNat])).1 = true ∨
         ((veAt m' (edgeAt m' edge_id).2.toNat).Nodup ∧
          ∃ e' ∈ veAt m' (edgeAt m' edge_id).2.toNat,
            collapseCond m' (edgeAt m' edge_id).2.toNat diag e'))) →
      r.2.1.edges_count < m'.edges_count) ∧
    (∀ (target : Nat) (q : List (ℤ × Nat)) (m' : Mesh) (mask' : List Bool)
       (g' : Groups) (res : Mesh × List Bool × Groups),
      (poolLoop target m' q mask' g').1 = .ok res →
      res.1.edges_count ≤ m'.edges_count) := by
  refine ⟨⟨?_, ?_, ?_, ?_⟩, ?_, ?_, ?_⟩
  · exact getD_set_self' mask e false true h3
  · show ((meshRemoveEdgeVe (meshUnionGroups m) e).edges.set e
      (-1, -1)).getD e (0, 0) = (-1, -1)
    exact getD_set_self' _ e (-1, -1) (0, 0) h1
  · show ((meshRemoveEdgeVe (meshUnionGroups m) e).gemm_edges.set e
      [-1, -1, -1, -1, -1, -1]).getD e [] = [-1, -1, -1, -1, -1, -1]
    exact getD_set_self' _ e _ [] h2
  · rw [removeEdge_count]
    omega
  · intro m' mask' g' vs h0 hf
    exact poolDoublets_count_lt m' mask' g' vs h0 hf
  · intro edge_id m' mask' g' r hEq hTrue h0 hex
    exact (edgeCollapse_count edge_id m' mask' g' r hEq).2 hTrue h0 hex
  · intro target q m' mask' g' res hres
    exact poolLoop_count_le target q m' mask' g' res hres

/-- C8 witness: removing edge 0 of the torus has the four stated effects;
clearing the doublet of `doubletMesh` drops the count from 4 to 2; the
successful collapse of torus edge 0 drops the count from 32; and a pooling
run that starts at its target keeps the count. -/
theorem c8_remove_edge_witness :
    ((removeEdge torusMesh 0 torusGroups torusMask).2.2.getD 0 true = false ∧
     (removeEdge torusMesh 0 torusGroups torusMask).1.edges.getD 0 (0, 0) =
       (-1, -1) ∧
     (removeEdge torusMesh 0 torusGroups torusMask).1.gemm_edges.getD 0 [] =
       [-1, -1, -1, -1, -1, -1] ∧
     (removeEdge torusMesh 0 torusGroups torusMask).1.edges_count + 1 =
       torusMesh.edges_count) ∧
    (poolDoublets doubletMesh (List.replicate 4 true) (initGroups 4)
      none).2.1.edges_count < doubletMesh.edges_count ∧
    torusCollapse.2.1.edges_count < torusMesh.edges_count ∧
    boundaryPairMesh.edges_count ≤ boundaryPairMesh.edges_count := by
  have hc8 := c8_remove_edge_theorem torusMesh 0 torusGroups torusMask
    (by decide) (by decide) (by decide) (by decide)
  refine ⟨hc8.1, ?_, ?_, ?_⟩
  · exact hc8.2.1 doubletMesh (List.replicate 4 true) (initGroups 4) none
      (by decide) (by decide)
  · have hEq : edgeCollapse 0 torusMesh torusMask torusGroups =
        .ok torusCollapse := by decide
    refine hc8.2.2.1 0 torusMesh torusMask torusGroups torusCollapse hEq
      (by decide) (by decide) ?_
    intro diag hdiag
    have hval : (edgeRotations torusMesh 0
        (edgeAt torusMesh 0).1.toNat).2.2 = some [5, 13] := by decide
    rw [hval] at hdiag
    injection hdiag with hd
    subst hd
    right
    exact ⟨by decide, 1, by decide, by decide⟩
  · exact hc8.2.2.2 2 [] boundaryPairMesh (List.replicate 2 true)
      (initGroups 2) (boundaryPairMesh, List.replicate 2 true, initGroups 2)
      (by decide)

/-! ## Claim C1: the back-pointer invariant -/

theorem fixMeshSides_sides_length : ∀ (touched : List Int) (m : Mesh),
    (fixMeshSides m touched).sides.length = m.sides.length := by
  intro touched
  induction touched with
  | nil => intro m; rfl
  | cons t ts ih =>
      intro m
      unfold fixMeshSides at *
      rw [List.foldl_cons]
      rw [ih]
      simp [List.length_set]

theorem backPtrOkB_congr (g1 g2 s1 s2 : List (List Int)) (e k : Nat)
    (hg : g1 = g2) (hs : s1.getD e [] = s2.getD e []) :
    backPtrOkB g1 s1 e k = backPtrOkB g2 s2 e k := by
  unfold backPtrOkB
  rw [hg, hs]

set_option maxHeartbeats 1000000

set_option maxHeartbeats 1000000

